import Mathlib

/-!
Verification of `h2o-py/h2o/model/h2o_model_builder.py` (class `H2OModelBuilder`).

The Python class is a client-side orchestrator: it reconciles a parameter
dictionary, validates features/target, materializes frames on a remote server,
folds user parameters with server defaults, submits a training job, dispatches
on the reported model category, and cleans up temporary server-side keys.

The shallow embedding below models:
  * Python values (`PyVal`) with Python truthiness, equality, indexing;
  * Python dictionaries as ordered association lists (`PyDict`) with Python
    insertion-order semantics;
  * object identity for the parameters dictionary via a small heap of
    dictionaries addressed by `Nat` (needed because `_update` returns the
    live dict object, so `saved_parameters` aliases `self._parameters`);
  * the network as a read-only environment (`Env`) of server responses plus a
    trace of outgoing calls (`Effect`), so that "before any network call" and
    "issues a removal call" are expressible;
  * exceptions as an `Except` whose error keeps the mutated state, matching
    Python exception semantics.
-/

set_option maxRecDepth 4000

/-- A server-held, column-oriented table referenced locally; the local wrapper
only ever consults its column names (`dataset.names()` in the source). -/
structure H2OFrame where
  names : List String
deriving DecidableEq, Repr

/-- A Python float as far as this code observes one: the source only ever
tests floats with `math.isinf` and Python truthiness, so a finite float is kept
as an opaque integer representative. -/
inductive PyFloat where
  | finite (q : Int)
  | inf
  | negInf
  | nan
deriving DecidableEq, Repr

/-- Python `==` on floats: `nan` compares unequal to everything, including
itself; `inf == inf` and `-inf == -inf` hold. -/
def PyFloat.pyBeq : PyFloat → PyFloat → Bool
  | .nan, _ => false
  | _, .nan => false
  | .finite a, .finite b => a == b
  | .inf, .inf => true
  | .negInf, .negInf => true
  | _, _ => false

instance : BEq PyFloat := ⟨PyFloat.pyBeq⟩

/-- Python truthiness of a float: `0.0` is falsy; `inf`, `-inf` and `nan`
are truthy. -/
def PyFloat.truthy : PyFloat → Bool
  | .finite q => q != 0
  | _ => true

/-- `math.isinf` -/
def PyFloat.isinf : PyFloat → Bool
  | .inf => true
  | .negInf => true
  | _ => false

/-- The Python values this module passes around: parameter values (`None`,
numbers, strings, lists) and `H2OFrame` objects. -/
inductive PyVal where
  | none
  | int (n : Int)
  | float (f : PyFloat)
  | str (s : String)
  | frame (f : H2OFrame)
  | list (xs : List PyVal)

/-- Python truthiness. `H2OFrame` truthiness is modelled from the spec: the
frame class is not under src/, and the spec reads `not self.training_frame` /
`not test_data` as "no dataset was supplied", i.e. presence of a frame object
counts as truthy. -/
def PyVal.truthy : PyVal → Bool
  | .none => false
  | .int n => n != 0
  | .float f => f.truthy
  | .str s => s != ""
  | .frame _ => true
  | .list xs => !xs.isEmpty

/-- Is this value Python's `None`? (`is None` in the source). -/
def PyVal.isNone : PyVal → Bool
  | .none => true
  | _ => false

def PyVal.isInt : PyVal → Bool
  | .int _ => true
  | _ => false

mutual

/-- Python `==` on values (comparisons across different kinds are `False`;
the code only ever compares column-name strings against parameter values). -/
def pyEq : PyVal → PyVal → Bool
  | .none, .none => true
  | .int a, .int b => a == b
  | .float a, .float b => a == b
  | .str a, .str b => a == b
  | .frame a, .frame b => a == b
  | .list as, .list bs => pyEqList as bs
  | _, _ => false

/-- Python `==` on lists of values, elementwise. -/
def pyEqList : List PyVal → List PyVal → Bool
  | [], [] => true
  | a :: as, b :: bs => pyEq a b && pyEqList as bs
  | _, _ => false

end

def pyNe (a b : PyVal) : Bool := !pyEq a b

/-- Python `v in container`: list membership by `==`; for a string container,
substring containment. Other containers raise `TypeError` in Python but are
unreachable here (the feature list is a list or a string by the time the
membership test runs), so they are mapped to `false`. -/
def pyIn (v container : PyVal) : Bool :=
  match container with
  | .list xs => xs.any (fun w => pyEq v w)
  | .str s =>
      match v with
      | .str t => decide (List.IsInfix t.data s.data)
      | _ => false
  | _ => false

/-- Python list indexing `l[i]`: negative indices wrap once; out of range is
`IndexError` (`Option.none` here). -/
def pyIndex (l : List String) (i : Int) : Option String :=
  let j := if i < 0 then i + l.length else i
  if j < 0 then none else l.get? j.toNat

/-- Python `str.format` with a single positional argument: the first `"{}"` in
the template is replaced, characters elsewhere are kept. -/
def pyFormatAux (arg : List Char) : List Char → List Char
  | [] => []
  | c1 :: c2 :: rest =>
      if c1 = '\x7b' ∧ c2 = '\x7d' then arg ++ rest
      else c1 :: pyFormatAux arg (c2 :: rest)
  | [c] => [c]

def pyFormat (tmpl arg : String) : String := ⟨pyFormatAux arg.data tmpl.data⟩

/-- A Python `dict` with `str` keys, as an ordered association list. -/
abbrev PyDict : Type := List (String × PyVal)

/-- `d[k]` lookup (first, and in well-formed dicts only, binding of `k`). -/
def PyDict.get? (d : PyDict) (k : String) : Option PyVal :=
  (List.find? (fun kv => kv.1 == k) d).map (·.2)

/-- `k in d` -/
def PyDict.hasKey (d : PyDict) (k : String) : Bool :=
  List.any d (fun kv => kv.1 == k)

/-- `d[k] = v`: overwrites in place keeping the key's position, or appends a
new binding, exactly as Python dicts preserve insertion order. -/
def PyDict.set (d : PyDict) (k : String) (v : PyVal) : PyDict :=
  if PyDict.hasKey d k then
    List.map (fun kv => if kv.1 == k then (k, v) else kv) d
  else d ++ [(k, v)]

/-- `list(d.keys())` -/
def PyDict.keys (d : PyDict) : List String := List.map (·.1) d

/-- The exception kinds this module can raise. `H2OMissingFrameError` and
`H2OUnknownModelError` are the two module-defined exception classes; the rest
are Python built-ins it triggers. -/
inductive PyError where
  | valueError (msg : String)
  | typeError (msg : String)
  | keyError (key : String)
  | attributeError (name : String)
  | indexError
  | missingFrameError (msg : String)
  | unknownModelError (msg : String)
deriving DecidableEq, Repr

def PyError.isValueError : PyError → Bool
  | .valueError _ => true
  | _ => false

def exceptOk {α : Type} : Except PyError α → Bool
  | .ok _ => true
  | .error _ => false

/-- One of the four result-wrapper classes, as a tag. -/
inductive ModelKind where
  | binomial
  | multinomial
  | clustering
  | regression
deriving DecidableEq, Repr

/-- A fitted result wrapper: the constructor receives the raw server output and
the algorithm name, and the builder stamps `_key` afterwards. -/
structure FittedModel where
  kind : ModelKind
  output : PyVal
  algo : String
  key : Option String

/-- An outgoing call to the remote server, as recorded in the trace. -/
inductive Effect where
  | sendFrame (names : List String) (key : String)
  | getJson (url : String)
  | postJson (url : String) (body : PyDict)
  | frameMeta (key : String)
  | remove (v : PyVal)

/-- The server's scripted responses (the remote engine is an external
collaborator; each fields answers one kind of request). -/
structure Env where
  /-- key returned by the n-th `H2OFrame.send_frame` call of the session -/
  frameKeys : Nat → String
  /-- `model_builders[algo].parameters`: a list of (name, default_value) -/
  schema : List (String × PyVal)
  /-- destination key of the polled training job -/
  destKey : String
  /-- `models[0].output.model_category` -/
  modelCategory : String
  /-- `models[0].output`, handed to the result-wrapper constructor -/
  modelOutput : PyVal
  /-- `model_metrics[0].predictions.key.name` of a prediction call -/
  predKeyName : String
  /-- `frames[0].columns[].label` of the prediction frame -/
  predLabels : List String
  /-- `frames[0].veckeys` of the prediction frame -/
  predVeckeys : List String

/-- The `H2OModelBuilder` object. `attrs` is modelled from the spec: it stands
for the public, non-callable attributes that `dir(self)` reports (the concrete
subclass builders setting `x`, `y`, ... are not under src/; `__init__` always
sets `training_frame`); `_update` collects exactly these into the parameter
dictionary. `parametersAddr` is the heap address of `self._parameters`. -/
structure Builder where
  algo : String
  attrs : PyDict
  modelType : String
  fittedModel : Option FittedModel
  modelKey : Option String
  parametersAddr : Nat

/-- `self.<name>` attribute read over the modelled public attributes. -/
def Builder.getAttr (b : Builder) (n : String) : Option PyVal :=
  (List.find? (fun kv => kv.1 == n) b.attrs).map (·.2)

/-- Mutable program state: the builder, the heap of dictionaries (object
identity for `self._parameters`), the count of `send_frame` calls made, and
the trace of outgoing server calls. -/
structure St where
  b : Builder
  heap : List PyDict
  nsent : Nat
  trace : List Effect

def heapGet (h : List PyDict) (a : Nat) : PyDict := h.getD a []

def heapSet (h : List PyDict) (a : Nat) (d : PyDict) : List PyDict := h.set a d

/-- The dictionary currently referenced by `self._parameters`. -/
def St.params (st : St) : PyDict := heapGet st.heap st.b.parametersAddr

/-- The computation monad: reads the environment, transforms the state, and
either returns a value or raises; a raise keeps the state mutated so far
(Python exceptions do not roll back side effects). -/
def M (α : Type) : Type := St → Env → Except PyError α × St

def M.run {α : Type} (m : M α) (st : St) (env : Env) : Except PyError α × St :=
  m st env

def M.pure {α : Type} (a : α) : M α := fun st _ => (.ok a, st)

def M.bind {α β : Type} (m : M α) (f : α → M β) : M β := fun st env =>
  match m st env with
  | (.ok a, st1) => f a st1 env
  | (.error e, st1) => (.error e, st1)

instance : Monad M where
  pure := M.pure
  bind := M.bind

def M.throw {α : Type} (e : PyError) : M α := fun st _ => (.error e, st)

def getSt : M St := fun st _ => (.ok st, st)

def setSt (st : St) : M Unit := fun _ _ => (.ok (), st)

def askEnv : M Env := fun st env => (.ok env, st)

def getB : M Builder := fun st _ => (.ok st.b, st)

def modifyB (f : Builder → Builder) : M Unit := fun st _ =>
  (.ok (), { st with b := f st.b })

def emit (e : Effect) : M Unit := fun st _ =>
  (.ok (), { st with trace := st.trace ++ [e] })

def liftE {α : Type} : Except PyError α → M α
  | .ok a => M.pure a
  | .error e => M.throw e

/-- Read `self._parameters[k]`; raises `KeyError` when missing. -/
def paramsGet (k : String) : M PyVal := fun st _ =>
  match PyDict.get? st.params k with
  | some v => (.ok v, st)
  | none => (.error (.keyError k), st)

/-- The state after writing `self._parameters[k] = v` through the heap
reference. -/
def stSetParam (st : St) (k : String) (v : PyVal) : St :=
  { st with
    heap := heapSet st.heap st.b.parametersAddr (PyDict.set st.params k v) }

/-- Write `self._parameters[k] = v` through the heap reference. -/
def paramsSet (k : String) (v : PyVal) : M Unit := fun st _ =>
  (.ok (), stSetParam st k v)

def getParams : M PyDict := fun st _ => (.ok st.params, st)

/-- `H2OFrame.send_frame`: cbinds the frame server-side and returns a fresh
temporary key (scripted by the environment, one per call). -/
def sendFrameM (f : H2OFrame) : M String := fun st env =>
  let key := env.frameKeys st.nsent
  (.ok key, { st with
    nsent := st.nsent + 1
    trace := st.trace ++ [Effect.sendFrame f.names key] })

/-- `h2o.remove(v)`: ask the server to delete a key. -/
def removeM (v : PyVal) : M Unit := fun st _ =>
  (.ok (), { st with trace := st.trace ++ [Effect.remove v] })

/-- Modelled from the spec: `ModelBase` (imported via `from . import ModelBase`)
is not under src/; the dispatch in `_set_fitted_model_and_model_type` compares
`self._model_type` — produced by formatting the `"H2O{}Model"` template with
the reported category — against these four class constants, and the spec fixes
the categories to Binomial/Multinomial/Clustering/Regression. -/
def ModelBase.BINOMIAL : String := "H2OBinomialModel"

/-- Modelled from the spec: see `ModelBase.BINOMIAL`. -/
def ModelBase.MULTINOMIAL : String := "H2OMultinomialModel"

/-- Modelled from the spec: see `ModelBase.BINOMIAL`. -/
def ModelBase.CLUSTERING : String := "H2OClusteringModel"

/-- Modelled from the spec: see `ModelBase.BINOMIAL`. -/
def ModelBase.REGRESSION : String := "H2ORegressionModel"

/-- The `self._model_type = "H2O{}Model"` template set in `__init__`. -/
def modelTypeTemplate : String := "H2O\x7b\x7dModel"

/-- `sys.maxint` of the 64-bit CPython 2 this file targets: the largest
representable plain integer. -/
def sysMaxint : Int := 2 ^ 63 - 1

/-- The value sanitization of `_update`: a float that `isinf` becomes
`sys.maxint` ("needed because st00pid backend doesn't read inf"), every other
value is kept. -/
def sanitizeVal : PyVal → PyVal
  | .float f => if f.isinf then .int sysMaxint else .float f
  | v => v

/-- The dictionary `_update` builds: `dict(zip(a, [getattr(o, i) for i in a]))`
over the public non-callable attributes, then the in-place infinity
replacement loop over its values. -/
def sanitizeDict (d : PyDict) : PyDict :=
  List.map (fun kv => (kv.1, sanitizeVal kv.2)) d

/-- `H2OModelBuilder._update`: rebuild `self._parameters` from the public
attributes (a fresh dict object on the heap), sanitize infinities in place,
and return the dict itself — i.e. a reference (heap address) to the same
object that `self._parameters` now points to, not a copy. -/
def updateM : M Nat := do
  let st ← getSt
  let d := sanitizeDict st.b.attrs
  let a := st.heap.length
  setSt { st with
    heap := st.heap ++ [d]
    b := { st.b with parametersAddr := a } }
  M.pure a

/-- The distinct message of the missing-features `ValueError`. -/
def missingFeaturesMsg : String := "No fit can be made, missing feature variables."

/-- `H2OModelBuilder._set_and_check_x_y`. -/
def setAndCheckXYM (x y : PyVal) : M (PyVal × PyVal) := do
  if !x.truthy || !y.truthy then
    -- `if not self._parameters["x"]:` (y is None for Unsupervised, not checked)
    let px ← paramsGet "x"
    if !px.truthy then
      M.throw (.valueError missingFeaturesMsg)
    else do
      let _ ← (if x.truthy then paramsSet "x" x else M.pure PUnit.unit)
      let _ ← (if y.truthy then paramsSet "y" y else M.pure PUnit.unit)
      -- `ret_x = self._parameters["x"]`
      let rx ← paramsGet "x"
      -- `ret_y = None if "y" not in self._parameters.keys() else self._parameters["y"]`
      let p ← getParams
      let ry := match PyDict.get? p "y" with
        | some v => v
        | none => PyVal.none
      M.pure (rx, ry)
  else
    M.pure (x, y)

/-- Modelled from the spec: `H2OFrame.__getitem__` (`self.training_frame[x]`)
is not under src/; the spec reads the guard as "fail if any requested feature
column is not actually present in the dataset", so the selection is truthy
exactly when every requested name is a column and every requested index is in
range. -/
def columnsPresent (f : H2OFrame) (x : PyVal) : Bool :=
  match x with
  | .list xs => xs.all (fun e =>
      match e with
      | .str s => f.names.contains s
      | .int i => (pyIndex f.names i).isSome
      | _ => false)
  | .str s => f.names.contains s
  | _ => false

/-- `H2OModelBuilder._check_training_frame`. The error message for invalid
columns is built by `x + " must be column(s) in " + str(dataset)`, which
itself raises `TypeError` whenever `x` is not a string (list + str). -/
def checkTrainingFrameM (x : PyVal) : M H2OFrame := do
  let st ← getSt
  match st.b.getAttr "training_frame" with
  | Option.none => M.throw (.attributeError "training_frame")
  | Option.some tf =>
    if !tf.truthy then
      M.throw (.missingFrameError "No training frame supplied.")
    else
      match tf with
      | .frame f =>
          if !(columnsPresent f x) then
            match x with
            | .str s => M.throw (.valueError (s ++ " must be column(s) in the dataset"))
            | _ => M.throw (.typeError "can only concatenate list (not str) to list")
          else
            M.pure f
      | _ => M.throw (.valueError "`training_frame` must be a H2OFrame.")

/-- One element of the comprehension `[dataset.names()[i] for i in x]`:
a non-integer element is a `TypeError` (list indices must be integers),
an out-of-range integer an `IndexError`. -/
def idxLookup (names : List String) : PyVal → Except PyError PyVal
  | .int i =>
      match pyIndex names i with
      | some nm => .ok (.str nm)
      | none => .error .indexError
  | _ => .error (.typeError "list indices must be integers")

/-- The `x` half of `_indexed_columns_to_named_columns`:
`if isinstance(x[0], int): x = [dataset.names()[i] for i in x]`. -/
def convertX (x : PyVal) (names : List String) : Except PyError PyVal :=
  match x with
  | .list [] => .error .indexError
  | .list (e :: rest) =>
      if e.isInt then
        (List.mapM (idxLookup names) (e :: rest)).map PyVal.list
      else
        .ok (.list (e :: rest))
  | .str s =>
      -- `x[0]` of a string is a one-character string, never an `int`
      if s = "" then .error .indexError else .ok (.str s)
  | _ => .error (.typeError "object is not subscriptable")

/-- The `y` half of `_indexed_columns_to_named_columns`:
`if y:` then `if isinstance(y, int): y = dataset.names()[y]`. -/
def convertY (y : PyVal) (names : List String) : Except PyError PyVal :=
  if y.truthy then
    match y with
    | .int i =>
        match pyIndex names i with
        | some nm => .ok (.str nm)
        | none => .error .indexError
    | v => .ok v
  else .ok y

/-- `H2OModelBuilder._indexed_columns_to_named_columns` (static method). -/
def indexedToNamed (x y : PyVal) (names : List String) :
    Except PyError (PyVal × PyVal) := do
  let x1 ← convertX x names
  let y1 ← convertY y names
  .ok (x1, y1)

/-- `H2OModelBuilder._set_ignored_columns`:
`[i for i in dataset.names() if i not in x and i != y]`. -/
def setIgnoredColumnsM (x y : PyVal) (names : List String) : M Unit :=
  paramsSet "ignored_columns"
    (.list ((names.filter
      (fun nm => !(pyIn (.str nm) x) && pyNe (.str nm) y)).map PyVal.str))

/-- `H2OModelBuilder._set_response_column`. -/
def setResponseColumnM (y : PyVal) : M Unit :=
  paramsSet "response_column" y

/-- `H2OModelBuilder._set_training_frame`: send the cbound frame, put its
temporary key into `self._parameters["training_frame"]`. -/
def setTrainingFrameM (dataset : H2OFrame) : M Unit := do
  let key ← sendFrameM dataset
  paramsSet "training_frame" (.str key)

/-- The isinstance check and send of `_set_validation_frame`, applied to the
value read back from `self._parameters["validation_frame"]`. -/
def checkAndSendValidation (v : PyVal) (passedToFit : Bool) : M Unit := do
  match v with
  | .frame f => do
      let key ← sendFrameM f
      paramsSet "validation_frame" (.str key)
  | _ =>
      M.throw (.valueError
        ((if passedToFit then "Validation passed to fit"
          else "Validation passed to model builder")
         ++ " must be of type H2OFrame."))

/-- `H2OModelBuilder._set_validation_frame`. -/
def setValidationFrameM (vf : PyVal) : M Unit := do
  let p ← getParams
  if vf.truthy || PyDict.hasKey p "validation_frame" then
    if vf.truthy then do
      -- the frame passed to `fit` is king
      paramsSet "validation_frame" vf
      checkAndSendValidation vf true
    else do
      -- `not validation_frame`: the outer guard ensures the key is present
      let pv ← paramsGet "validation_frame"
      if !pv.truthy then
        M.pure ()
      else
        checkAndSendValidation pv false
  else
    M.pure ()

/-- The pure folding core of `_fold_default_params_with_user_params`, applied
to the raw `(name, default_value)` schema list and the current parameters:
build the defaults dict, overlay the user's values for recognized keys, then
pop every key whose value is `None`. -/
def foldCore (raw : List (String × PyVal)) (params : PyDict) : PyDict :=
  let dflt : PyDict := raw.foldl (fun d kv => PyDict.set d kv.1 kv.2) []
  let fill := (PyDict.keys params).filter (fun k => PyDict.hasKey dflt k)
  let merged := fill.foldl (fun d k =>
    match PyDict.get? params k with
    | some v => PyDict.set d k v
    | none => d) dflt
  merged.filter (fun kv => !kv.2.isNone)

/-- `H2OModelBuilder._fold_default_params_with_user_params`: ask the server
for the default parameter schema and fold the user parameters in. -/
def foldDefaultParamsM : M PyDict := do
  let st ← getSt
  emit (.getJson ("ModelBuilders/" ++ st.b.algo))
  let env ← askEnv
  let p ← getParams
  M.pure (foldCore env.schema p)

/-- The job submission of `fit`: POST the folded parameters and poll the job
to completion (`H2OJob(...).poll()`, an external collaborator), yielding the
job's destination key. -/
def postJobM (body : PyDict) : M String := do
  let st ← getSt
  emit (.postJson ("ModelBuilders/" ++ st.b.algo) body)
  let env ← askEnv
  M.pure env.destKey

/-- `H2OModelBuilder._set_fitted_model_and_model_type`. -/
def setFittedModelM (destKey : String) : M Unit := do
  modifyB (fun b => { b with modelKey := some destKey })
  emit (.getJson ("Models/" ++ destKey))
  let env ← askEnv
  let st ← getSt
  -- `self._model_type = self._model_type.format(model["output"]["model_category"])`
  let mt := pyFormat st.b.modelType env.modelCategory
  modifyB (fun b => { b with modelType := mt })
  if mt = ModelBase.BINOMIAL then
    modifyB (fun b => { b with
      fittedModel := some ⟨.binomial, env.modelOutput, b.algo, Option.none⟩ })
  else if mt = ModelBase.MULTINOMIAL then
    modifyB (fun b => { b with
      fittedModel := some ⟨.multinomial, env.modelOutput, b.algo, Option.none⟩ })
  else if mt = ModelBase.CLUSTERING then
    modifyB (fun b => { b with
      fittedModel := some ⟨.clustering, env.modelOutput, b.algo, Option.none⟩ })
  else if mt = ModelBase.REGRESSION then
    modifyB (fun b => { b with
      fittedModel := some ⟨.regression, env.modelOutput, b.algo, Option.none⟩ })
  else
    M.throw (.unknownModelError ("Don't know what to do with model type: " ++ mt))
  -- `self._fitted_model._key = destination_key`
  modifyB (fun b => { b with
    fittedModel := b.fittedModel.map (fun m => { m with key := some destKey }) })

/-- `H2OModelBuilder.fit`. -/
def fitM (x y validation_frame : PyVal) : M Builder := do
  -- `saved_parameters = self._update()` — note: this is the dict object
  -- itself (a heap reference), not a copy of its contents
  let saved ← updateM
  let xy ← setAndCheckXYM x y
  let dataset ← checkTrainingFrameM xy.1
  let xy2 ← liftE (indexedToNamed xy.1 xy.2 dataset.names)
  setIgnoredColumnsM xy2.1 xy2.2 dataset.names
  -- `if y:` — y is None for Unsupervised Learners
  let _ ← (if xy2.2.truthy then setResponseColumnM xy2.2 else M.pure PUnit.unit)
  setTrainingFrameM dataset
  setValidationFrameM validation_frame
  let modelParams ← foldDefaultParamsM
  let destKey ← postJobM modelParams
  setFittedModelM destKey
  -- cleanup: `h2o.remove(self._parameters["training_frame"])`
  let tk ← paramsGet "training_frame"
  removeM tk
  let p ← getParams
  let _ ← (match PyDict.get? p "validation_frame" with
           | some vv => if !vv.isNone then removeM vv else M.pure ()
           | Option.none => M.pure ())
  -- `self._parameters = saved_parameters` — restores the reference only
  modifyB (fun b => { b with parametersAddr := saved })
  getB

/-- `H2OModelBuilder.model_performance`: raises before any fit; afterwards it
delegates to the fitted result wrapper (an external collaborator). -/
def modelPerformanceM (_test_data : PyVal) : M Unit := do
  let st ← getSt
  match st.b.fittedModel with
  | Option.none => M.throw (.valueError "No model available. Did you call fit()?")
  | Option.some _ => M.pure ()

/-- `H2OModelBuilder.summary`: `self._fitted_model.summary()` with no guard —
on an unfit builder `self._fitted_model` is `None` and the attribute access
raises `AttributeError`, not `ValueError`. -/
def summaryM : M Unit := do
  let st ← getSt
  match st.b.fittedModel with
  | Option.none => M.throw (.attributeError "summary")
  | Option.some _ => M.pure ()

/-- `H2OModelBuilder.predict`. -/
def predictM (test_data : PyVal) : M H2OFrame := do
  if !test_data.truthy then
    M.throw (.valueError "Must specify test data")
  else do
    -- `test_data_key = H2OFrame.send_frame(test_data)`
    match test_data with
    | .frame f => do
        let testDataKey ← sendFrameM f
        let st ← getSt
        match st.b.modelKey with
        | Option.none =>
            -- `"Predictions/models/" + None` raises in Python
            M.throw (.typeError "cannot concatenate str and NoneType")
        | Option.some mk => do
            emit (.postJson ("Predictions/models/" ++ mk ++ "/frames/" ++ testDataKey) [])
            let env ← askEnv
            -- retrieve the prediction frame metadata by its key
            emit (.frameMeta env.predKeyName)
            -- `vecs = H2OVec.new_vecs(zip(cols, veckeys), rows)`
            let cols := (env.predLabels.zip env.predVeckeys).map (·.1)
            -- `h2o.remove(self._parameters["training_frame"])`
            let tv ← paramsGet "training_frame"
            removeM tv
            M.pure (H2OFrame.mk cols)
    | _ =>
        -- `send_frame` on a non-frame is outside src/; the frame module
        -- rejects it, modelled as the `TypeError` Python produces
        M.throw (.typeError "send_frame expects an H2OFrame")

/-! ### Dictionary lemmas -/

theorem PyDict.get?_nil (k : String) : PyDict.get? ([] : PyDict) k = Option.none := rfl

theorem PyDict.get?_cons (kv : String × PyVal) (d : PyDict) (k : String) :
    PyDict.get? (kv :: d : PyDict) k =
      if kv.1 = k then some kv.2 else PyDict.get? d k := by
  simp only [PyDict.get?, List.find?]
  by_cases h : kv.1 = k
  · simp [h]
  · simp [h, beq_eq_false_iff_ne.mpr h]

theorem PyDict.hasKey_nil (k : String) : PyDict.hasKey ([] : PyDict) k = false := rfl

theorem PyDict.hasKey_cons (kv : String × PyVal) (d : PyDict) (k : String) :
    PyDict.hasKey (kv :: d : PyDict) k = (kv.1 == k || PyDict.hasKey d k) := by
  simp [PyDict.hasKey]

theorem PyDict.hasKey_eq_isSome (d : PyDict) (k : String) :
    PyDict.hasKey d k = (PyDict.get? d k).isSome := by
  induction d with
  | nil => rfl
  | cons kv t ih =>
      rw [PyDict.hasKey_cons, PyDict.get?_cons]
      by_cases h : kv.1 = k
      · simp [h]
      · simp [h, beq_eq_false_iff_ne.mpr h, ih]

theorem PyDict.get?_append (d e : PyDict) (k : String) :
    PyDict.get? (d ++ e) k =
      match PyDict.get? d k with
      | some v => some v
      | Option.none => PyDict.get? e k := by
  induction d with
  | nil => simp [PyDict.get?]
  | cons kv t ih =>
      rw [List.cons_append, PyDict.get?_cons, PyDict.get?_cons]
      by_cases h : kv.1 = k <;> simp [h, ih]

theorem PyDict.get?_eq_none_of_not_hasKey (d : PyDict) (k : String)
    (hk : ¬PyDict.hasKey d k = true) : PyDict.get? d k = Option.none := by
  cases hg : PyDict.get? d k with
  | none => rfl
  | some w =>
      exfalso
      apply hk
      rw [PyDict.hasKey_eq_isSome, hg]
      rfl

theorem PyDict.get?_overwrite (t : PyDict) (k : String) (v : PyVal) :
    PyDict.get?
      (List.map (fun kv => if kv.1 == k then (k, v) else kv) t) k =
      if PyDict.hasKey t k then some v else Option.none := by
  induction t with
  | nil => rfl
  | cons kv u ih =>
      rw [List.map_cons, PyDict.get?_cons, PyDict.hasKey_cons]
      simp only [beq_iff_eq] at ih ⊢
      by_cases hkk : kv.1 = k
      · simp [hkk]
      · simp [hkk, ih]

theorem PyDict.get?_overwrite_ne (t : PyDict) (k k' : String) (v : PyVal)
    (h : k' ≠ k) :
    PyDict.get?
      (List.map (fun kv => if kv.1 == k then (k, v) else kv) t) k' =
      PyDict.get? t k' := by
  induction t with
  | nil => rfl
  | cons kv u ih =>
      rw [List.map_cons, PyDict.get?_cons, PyDict.get?_cons]
      simp only [beq_iff_eq] at ih ⊢
      by_cases hkk : kv.1 = k
      · have hne : ¬(k = k') := fun hc => h hc.symm
        simp [hkk, hne, ih]
      · by_cases hk' : kv.1 = k' <;> simp [hkk, hk', h, ih]

theorem PyDict.get?_set_self (d : PyDict) (k : String) (v : PyVal) :
    PyDict.get? (PyDict.set d k v) k = some v := by
  unfold PyDict.set
  by_cases hk : PyDict.hasKey d k = true
  · rw [if_pos hk, PyDict.get?_overwrite, if_pos hk]
  · rw [if_neg hk, PyDict.get?_append, PyDict.get?_eq_none_of_not_hasKey d k hk]
    simp [PyDict.get?_cons]

theorem PyDict.get?_set_ne (d : PyDict) (k k' : String) (v : PyVal)
    (h : k' ≠ k) : PyDict.get? (PyDict.set d k v) k' = PyDict.get? d k' := by
  unfold PyDict.set
  by_cases hk : PyDict.hasKey d k = true
  · rw [if_pos hk, PyDict.get?_overwrite_ne d k k' v h]
  · rw [if_neg hk, PyDict.get?_append]
    cases hg : PyDict.get? d k' with
    | some w => simp
    | none => simp [PyDict.get?_cons, PyDict.get?_nil, Ne.symm h]

theorem PyDict.hasKey_iff_mem_keys (d : PyDict) (k : String) :
    PyDict.hasKey d k = true ↔ k ∈ PyDict.keys d := by
  unfold PyDict.hasKey PyDict.keys
  rw [List.any_eq_true]
  constructor
  · rintro ⟨kv, hm, he⟩
    exact List.mem_map.mpr ⟨kv, hm, beq_iff_eq.mp he⟩
  · intro hm
    obtain ⟨kv, hkv, he⟩ := List.mem_map.mp hm
    exact ⟨kv, hkv, beq_iff_eq.mpr he⟩

theorem PyDict.keys_overwrite (t : PyDict) (k : String) (v : PyVal) :
    PyDict.keys (List.map (fun kv => if kv.1 == k then (k, v) else kv) t) =
      PyDict.keys t := by
  induction t with
  | nil => rfl
  | cons kv u ih =>
      simp only [List.map_cons, PyDict.keys] at ih ⊢
      by_cases h : kv.1 = k
      · simp only [h, beq_self_eq_true, if_true, ih]
      · simp only [beq_eq_false_iff_ne.mpr h, Bool.false_eq_true, if_false, ih]

theorem PyDict.keys_set (d : PyDict) (k : String) (v : PyVal) :
    PyDict.keys (PyDict.set d k v) =
      if PyDict.hasKey d k then PyDict.keys d else PyDict.keys d ++ [k] := by
  unfold PyDict.set
  by_cases hk : PyDict.hasKey d k = true
  · rw [if_pos hk, if_pos hk, PyDict.keys_overwrite]
  · rw [if_neg hk, if_neg hk]
    simp [PyDict.keys]

theorem PyDict.keys_set_nodup (d : PyDict) (k : String) (v : PyVal)
    (h : (PyDict.keys d).Nodup) : (PyDict.keys (PyDict.set d k v)).Nodup := by
  rw [PyDict.keys_set]
  by_cases hk : PyDict.hasKey d k = true
  · rwa [if_pos hk]
  · rw [if_neg hk]
    have : k ∉ PyDict.keys d := fun hm => hk ((PyDict.hasKey_iff_mem_keys d k).mpr hm)
    simp [List.nodup_append, h, this]

/-- The defaults dictionary `{n["name"]: n["default_value"] for n in raw}`. -/
def defaultsDict (raw : List (String × PyVal)) : PyDict :=
  raw.foldl (fun d kv => PyDict.set d kv.1 kv.2) []

theorem defaultsDict_keys_nodup (raw : List (String × PyVal)) :
    (PyDict.keys (defaultsDict raw)).Nodup := by
  unfold defaultsDict
  have main : ∀ (l : List (String × PyVal)) (D : PyDict), (PyDict.keys D).Nodup →
      (PyDict.keys (l.foldl (fun d kv => PyDict.set d kv.1 kv.2) D)).Nodup := by
    intro l
    induction l with
    | nil => intro D hD; exact hD
    | cons kv t ih =>
        intro D hD
        exact ih _ (PyDict.keys_set_nodup D kv.1 kv.2 hD)
  exact main raw [] (by simp [PyDict.keys])

theorem fold_step_get_not_mem (params : PyDict) (L : List String) :
    ∀ (D : PyDict) (k : String), k ∉ L →
    PyDict.get? (L.foldl (fun d k' =>
      match PyDict.get? params k' with
      | some v => PyDict.set d k' v
      | Option.none => d) D) k = PyDict.get? D k := by
  induction L with
  | nil => intro D k _; rfl
  | cons a t ih =>
      intro D k h
      have hka : k ≠ a := fun hc => h (hc ▸ List.mem_cons_self a t)
      have hkt : k ∉ t := fun hc => h (List.mem_cons_of_mem a hc)
      rw [List.foldl_cons, ih _ k hkt]
      cases hg : PyDict.get? params a with
      | some v => simp only [hg]; exact PyDict.get?_set_ne D a k v hka
      | none => simp only [hg]

theorem fold_step_get (params : PyDict) (L : List String) :
    ∀ (D : PyDict) (k : String), L.Nodup →
    PyDict.get? (L.foldl (fun d k' =>
      match PyDict.get? params k' with
      | some v => PyDict.set d k' v
      | Option.none => d) D) k =
      if k ∈ L ∧ (PyDict.get? params k).isSome then PyDict.get? params k
      else PyDict.get? D k := by
  induction L with
  | nil => intro D k _; simp
  | cons a t ih =>
      intro D k hnd
      obtain ⟨hna, hndt⟩ : a ∉ t ∧ t.Nodup := by simpa [List.nodup_cons] using hnd
      rw [List.foldl_cons]
      by_cases hk : k = a
      · subst hk
        rw [fold_step_get_not_mem params t _ k hna]
        cases hg : PyDict.get? params k with
        | some v => simp [hg, PyDict.get?_set_self]
        | none => simp [hg]
      · rw [ih _ k hndt]
        cases hg : PyDict.get? params a with
        | some v => simp [hg, PyDict.get?_set_ne D a k v hk, List.mem_cons, hk]
        | none => simp [hg, List.mem_cons, hk]

theorem fold_step_keys_nodup (params : PyDict) (L : List String) :
    ∀ (D : PyDict), (PyDict.keys D).Nodup →
    (PyDict.keys (L.foldl (fun d k' =>
      match PyDict.get? params k' with
      | some v => PyDict.set d k' v
      | Option.none => d) D)).Nodup := by
  induction L with
  | nil => intro D hD; exact hD
  | cons a t ih =>
      intro D hD
      rw [List.foldl_cons]
      apply ih
      cases hg : PyDict.get? params a with
      | some v => simpa only [hg] using PyDict.keys_set_nodup D a v hD
      | none => simpa only [hg] using hD

theorem get?_filter_not_none (d : PyDict) :
    ∀ k, (PyDict.keys d).Nodup →
    PyDict.get? (d.filter (fun kv => !kv.2.isNone)) k =
      match PyDict.get? d k with
      | some v => if v.isNone then Option.none else some v
      | Option.none => Option.none := by
  induction d with
  | nil => intro k _; rfl
  | cons kv t ih =>
      intro k hnd
      obtain ⟨hna, hndt⟩ : kv.1 ∉ PyDict.keys t ∧ (PyDict.keys t).Nodup := by
        simpa [PyDict.keys, List.nodup_cons] using hnd
      rw [PyDict.get?_cons]
      by_cases hv : kv.2.isNone = true
      · rw [List.filter_cons_of_neg (by simp [hv])]
        rw [ih k hndt]
        by_cases hk : kv.1 = k
        · have hnone : PyDict.get? t k = Option.none := by
            apply PyDict.get?_eq_none_of_not_hasKey
            intro hh
            exact hna (hk ▸ (PyDict.hasKey_iff_mem_keys t k).mp hh)
          simp [hk, hnone, hv]
        · simp [hk]
      · rw [List.filter_cons_of_pos (by simp [hv])]
        rw [PyDict.get?_cons]
        by_cases hk : kv.1 = k
        · simp [hk, hv]
        · simp [hk, ih k hndt]

/-- Claim C4 helper: membership in the `params_to_fill` list. -/
theorem mem_fill_iff (params dflt : PyDict) (k : String) :
    k ∈ (PyDict.keys params).filter (fun k' => PyDict.hasKey dflt k') ↔
      k ∈ PyDict.keys params ∧ PyDict.hasKey dflt k = true := by
  simp [List.mem_filter]

/-- C4: the folded request body equals the server's declared default parameter
schema overlaid with the user's value for every key the user set that the
server also recognizes, with every key whose resulting value is null removed.
Consequently a user-supplied key not in the server's default schema is absent
(the `Option.none` branch of the match on the defaults), and no key of the
result carries a null value (both `if` branches drop it). -/
theorem fold_default_params_spec (raw : List (String × PyVal)) (params : PyDict)
    (hnd : (PyDict.keys params).Nodup) (k : String) :
    PyDict.get? (foldCore raw params) k =
      match PyDict.get? (defaultsDict raw) k with
      | Option.none => Option.none
      | some dv =>
          match PyDict.get? params k with
          | some uv => if uv.isNone then Option.none else some uv
          | Option.none => if dv.isNone then Option.none else some dv := by
  have hfill_nodup :
      ((PyDict.keys params).filter
        (fun k' => PyDict.hasKey (defaultsDict raw) k')).Nodup :=
    List.Nodup.filter _ hnd
  have hmerged_nodup := fold_step_keys_nodup params
    ((PyDict.keys params).filter (fun k' => PyDict.hasKey (defaultsDict raw) k'))
    (defaultsDict raw) (defaultsDict_keys_nodup raw)
  show PyDict.get?
      ((((PyDict.keys params).filter
          (fun k' => PyDict.hasKey (defaultsDict raw) k')).foldl
        (fun d k' =>
          match PyDict.get? params k' with
          | some v => PyDict.set d k' v
          | Option.none => d) (defaultsDict raw)).filter
        (fun kv => !kv.2.isNone)) k = _
  rw [get?_filter_not_none _ k hmerged_nodup]
  rw [fold_step_get params _ _ k hfill_nodup]
  cases hd : PyDict.get? (defaultsDict raw) k with
  | none =>
      have hnk : ¬PyDict.hasKey (defaultsDict raw) k = true := by
        rw [PyDict.hasKey_eq_isSome, hd]
        simp
      have : k ∉ (PyDict.keys params).filter
          (fun k' => PyDict.hasKey (defaultsDict raw) k') := by
        intro hm
        exact hnk ((mem_fill_iff params (defaultsDict raw) k).mp hm).2
      simp [this, hd]
  | some dv =>
      cases hp : PyDict.get? params k with
      | some uv =>
          have hkmem : k ∈ PyDict.keys params := by
            apply (PyDict.hasKey_iff_mem_keys params k).mp
            rw [PyDict.hasKey_eq_isSome, hp]
            rfl
          have hfill : k ∈ (PyDict.keys params).filter
              (fun k' => PyDict.hasKey (defaultsDict raw) k') := by
            apply (mem_fill_iff params (defaultsDict raw) k).mpr
            refine ⟨hkmem, ?_⟩
            rw [PyDict.hasKey_eq_isSome, hd]
            rfl
          simp [hfill, hp]
      | none =>
          simp [hp, hd]

/-- Witness for C4 at a concrete schema and user dictionary: the user's
recognized key overrides the default, the user's unrecognized key is absent,
and both null-valued keys are absent from the body. -/
theorem fold_default_params_spec_witness :
    (PyDict.keys
      ([("max_depth", .int 3), ("custom", .int 7),
        ("nulled", PyVal.none)] : PyDict)).Nodup
    ∧ PyDict.get? (foldCore
        [("max_depth", .int 5), ("seed", PyVal.none), ("nulled", .int 1)]
        [("max_depth", .int 3), ("custom", .int 7), ("nulled", PyVal.none)])
        "max_depth" =
      match PyDict.get? (defaultsDict
        [("max_depth", .int 5), ("seed", PyVal.none), ("nulled", .int 1)])
        "max_depth" with
      | Option.none => Option.none
      | some dv =>
          match PyDict.get?
            ([("max_depth", .int 3), ("custom", .int 7),
              ("nulled", PyVal.none)] : PyDict) "max_depth" with
          | some uv => if uv.isNone then Option.none else some uv
          | Option.none => if dv.isNone then Option.none else some dv := by
  constructor
  · decide
  · exact fold_default_params_spec
      [("max_depth", .int 5), ("seed", PyVal.none), ("nulled", .int 1)]
      [("max_depth", .int 3), ("custom", .int 7), ("nulled", PyVal.none)]
      (by decide) "max_depth"

theorem get?_sanitizeDict (d : PyDict) (k : String) :
    PyDict.get? (sanitizeDict d) k = (PyDict.get? d k).map sanitizeVal := by
  induction d with
  | nil => rfl
  | cons kv t ih =>
      show PyDict.get? ((kv.1, sanitizeVal kv.2) :: sanitizeDict t) k = _
      rw [PyDict.get?_cons, PyDict.get?_cons]
      by_cases h : kv.1 = k <;> simp [h, ih]

/-- Is this value a float equal to positive or negative infinity? -/
def PyVal.isInfFloat : PyVal → Bool
  | .float f => f.isinf
  | _ => false

/-- C5: during the reconciliation of `_update`, every collected parameter whose
value is a float equal to positive or negative infinity is replaced by the
`sys.maxint` sentinel in the rebuilt parameters dictionary, every other
collected value is kept unchanged, and no request is issued (the trace is
untouched, so the replacement happens before any request is built). -/
theorem update_replaces_infinite_floats (st : St) (env : Env) (k : String)
    (v : PyVal) (h : PyDict.get? st.b.attrs k = some v) :
    PyDict.get? ((updateM.run st env).2.params) k =
      some (if v.isInfFloat then .int sysMaxint else v)
    ∧ (updateM.run st env).2.trace = st.trace := by
  have hs : (updateM.run st env).2.params = sanitizeDict st.b.attrs := by
    show heapGet (st.heap ++ [sanitizeDict st.b.attrs]) st.heap.length = _
    simp [heapGet, List.getD, List.getElem?_concat_length]
  constructor
  · rw [hs, get?_sanitizeDict, h]
    cases v <;> simp [sanitizeVal, PyVal.isInfFloat]
  · rfl

/-! ### Concrete fixtures shared by the claims -/

def egFrame : H2OFrame := ⟨["a", "b", "c"]⟩

def egValFrame : H2OFrame := ⟨["a", "b"]⟩

def egAttrs : PyDict :=
  [("training_frame", .frame egFrame),
   ("x", .list [.str "a", .str "b"]),
   ("y", .str "c")]

def egBuilder : Builder :=
  ⟨"gbm", egAttrs, modelTypeTemplate, Option.none, Option.none, 0⟩

def egSt : St := ⟨egBuilder, [[]], 0, []⟩

def egEnv : Env :=
  { frameKeys := fun n => if n = 0 then "tmpTrain" else "tmpVal"
    schema := [("ignored_columns", PyVal.none), ("response_column", PyVal.none),
               ("training_frame", PyVal.none), ("max_depth", .int 5)]
    destKey := "model1"
    modelCategory := "Binomial"
    modelOutput := .int 42
    predKeyName := "pred1"
    predLabels := ["predict"]
    predVeckeys := ["vk1"] }

/-- A builder whose collected attributes contain an infinite float. -/
def egInfSt : St :=
  ⟨⟨"deeplearning",
    [("epsilon", .float .inf), ("rho", .float (.finite 99)), ("x", .list [.str "a"])],
    modelTypeTemplate, Option.none, Option.none, 0⟩, [[]], 0, []⟩

/-- Witness for C5: the infinite `epsilon` is replaced by `sys.maxint` in the
rebuilt parameters while the trace stays empty. -/
theorem update_replaces_infinite_floats_witness :
    PyDict.get? egInfSt.b.attrs "epsilon" = some (.float .inf)
    ∧ (PyDict.get? ((updateM.run egInfSt egEnv).2.params) "epsilon" =
        some (if (PyVal.float .inf).isInfFloat then .int sysMaxint
              else PyVal.float .inf)
      ∧ (updateM.run egInfSt egEnv).2.trace = egInfSt.trace) :=
  ⟨rfl, update_replaces_infinite_floats egInfSt egEnv "epsilon" (.float .inf) rfl⟩

/-- C9: the x half behaves as specified — indices `[0, 2]` over columns
a,b,c,d resolve to `["a","c"]` — but an integer target `y = 0`, a valid
0-based index by `fit`'s docstring, is NOT converted: the `if y:` guard of
`_indexed_columns_to_named_columns` treats the integer `0` as absent, so it
is returned unchanged instead of becoming `"a"`. A nonzero index is converted
as the claim describes. -/
theorem indexed_columns_y_zero_not_converted :
    indexedToNamed (.list [.int 0, .int 2]) (.int 0) ["a", "b", "c", "d"] =
      .ok (.list [.str "a", .str "c"], .int 0)
    ∧ indexedToNamed (.list [.int 0, .int 2]) (.int 3) ["a", "b", "c", "d"] =
      .ok (.list [.str "a", .str "c"], .str "d")
    ∧ PyVal.int 0 ≠ PyVal.str "a" := by
  refine ⟨rfl, rfl, fun h => PyVal.noConfusion h⟩

theorem mapM_idxLookup_error_of_str (names : List String) :
    ∀ (l : List PyVal) (s : String), PyVal.str s ∈ l →
    ∃ e, List.mapM (idxLookup names) l = Except.error e := by
  intro l
  induction l with
  | nil => intro s hm; cases hm
  | cons a t ih =>
      intro s hm
      rw [List.mapM_cons]
      cases hf : idxLookup names a with
      | error e => exact ⟨e, rfl⟩
      | ok b =>
          rcases List.mem_cons.mp hm with h1 | h2
          · rw [← h1] at hf
            simp [idxLookup] at hf
          · obtain ⟨e, he⟩ := ih s h2
            refine ⟨e, ?_⟩
            rw [he]
            rfl

/-- C10: index-to-name resolution of the feature list inspects only its first
element. If `x[0]` is not an integer the whole list is returned unconverted
(even when later elements are integers); if `x[0]` is an integer, every
element — including name strings — is used as a positional index, so a name
string anywhere in the list makes the call raise. -/
theorem indexed_columns_first_element_dispatch (e : PyVal) (rest : List PyVal)
    (names : List String) :
    (e.isInt = false →
      convertX (.list (e :: rest)) names = .ok (.list (e :: rest)))
    ∧ (e.isInt = true →
      convertX (.list (e :: rest)) names =
        (List.mapM (idxLookup names) (e :: rest)).map PyVal.list)
    ∧ (e.isInt = true → ∀ s : String, PyVal.str s ∈ rest →
        ∃ err, convertX (.list (e :: rest)) names = .error err) := by
  have hok : e.isInt = true →
      convertX (.list (e :: rest)) names =
        (List.mapM (idxLookup names) (e :: rest)).map PyVal.list := by
    intro h
    simp [convertX, h]
  refine ⟨?_, hok, ?_⟩
  · intro h
    simp [convertX, h]
  · intro h s hm
    obtain ⟨err, herr⟩ :=
      mapM_idxLookup_error_of_str names (e :: rest) s (List.mem_cons_of_mem e hm)
    refine ⟨err, ?_⟩
    rw [hok h, herr]
    rfl

/-- Witness for C10: a name-led mixed list is left alone, an index-led list is
looked up elementwise, and an index-led list containing a name string
raises. -/
theorem indexed_columns_first_element_dispatch_witness :
    ((PyVal.str "a").isInt = false
      ∧ convertX (.list [.str "a", .int 1]) ["a", "b"] =
          .ok (.list [.str "a", .int 1]))
    ∧ ((PyVal.int 0).isInt = true
      ∧ convertX (.list [.int 0, .int 1]) ["a", "b"] =
          (List.mapM (idxLookup ["a", "b"]) [.int 0, .int 1]).map PyVal.list
      ∧ ∃ err, convertX (.list [.int 0, .str "b"]) ["a", "b"] = .error err) := by
  refine ⟨⟨rfl, ?_⟩, rfl, ?_, ?_⟩
  · exact (indexed_columns_first_element_dispatch (.str "a") [.int 1] ["a", "b"]).1 rfl
  · exact (indexed_columns_first_element_dispatch (.int 0) [.int 1] ["a", "b"]).2.1 rfl
  · exact (indexed_columns_first_element_dispatch (.int 0) [.str "b"] ["a", "b"]).2.2
      rfl "b" (by simp)

/-- C8 counterexample: on a builder with no fitted model, `summary` raises
`AttributeError` (attribute access on `None`), not the generic argument error
(`ValueError`) that the claim asserts for both entry points. -/
theorem summary_without_fit_not_value_error :
    (summaryM.run egSt egEnv).1 = .error (.attributeError "summary")
    ∧ PyError.isValueError (.attributeError "summary") = false :=
  ⟨rfl, rfl⟩

/-- C8 amended: before any fit, `model_performance` raises the guard's
`ValueError` while `summary` raises `AttributeError` from the unguarded
attribute access on `None`. -/
theorem performance_and_summary_before_fit (st : St) (env : Env) (td : PyVal)
    (h : st.b.fittedModel = Option.none) :
    (modelPerformanceM td).run st env =
      (.error (.valueError "No model available. Did you call fit()?"), st)
    ∧ summaryM.run st env = (.error (.attributeError "summary"), st) := by
  obtain ⟨⟨alg, att, mt, fm, mk, pa⟩, hp, ns, tr⟩ := st
  replace h : fm = Option.none := h
  subst h
  exact ⟨rfl, rfl⟩

/-- Witness for C8 amended on a fresh builder. -/
theorem performance_and_summary_before_fit_witness :
    egSt.b.fittedModel = Option.none
    ∧ ((modelPerformanceM (.frame egFrame)).run egSt egEnv =
        (.error (.valueError "No model available. Did you call fit()?"), egSt)
      ∧ summaryM.run egSt egEnv = (.error (.attributeError "summary"), egSt)) :=
  ⟨rfl, performance_and_summary_before_fit egSt egEnv (.frame egFrame) rfl⟩

/-- The feature list used by the concrete fit runs. -/
def egFitArgsX : PyVal := .list [.str "a", .str "b"]

/-- A complete successful fit of the fixture builder. -/
def egRun1 : Except PyError Builder × St :=
  (fitM egFitArgsX (.str "c") PyVal.none).run egSt egEnv

/-- C1: after `egRun1` returns successfully, the builder's parameter mapping
still shows every mutation `fit` performed — `ignored_columns` and
`response_column` are present and `training_frame` holds the temporary key
instead of the frame — although the snapshot `_update` returned
(`sanitizeDict egSt.b.attrs`) had none of them: `saved_parameters` aliases
the live dict, so `self._parameters = saved_parameters` restores nothing. -/
theorem fit_leaves_parameter_mutations_visible :
    exceptOk egRun1.1 = true
    ∧ PyDict.get? (sanitizeDict egSt.b.attrs) "ignored_columns" = Option.none
    ∧ PyDict.get? egRun1.2.params "ignored_columns" = some (.list [])
    ∧ PyDict.get? (sanitizeDict egSt.b.attrs) "response_column" = Option.none
    ∧ PyDict.get? egRun1.2.params "response_column" = some (.str "c")
    ∧ PyDict.get? (sanitizeDict egSt.b.attrs) "training_frame" =
        some (.frame egFrame)
    ∧ PyDict.get? egRun1.2.params "training_frame" = some (.str "tmpTrain") :=
  ⟨rfl, rfl, rfl, rfl, rfl, rfl, rfl⟩

/-- A builder that has already been fitted once (model key `model1`), with its
parameters still holding the temporary training-frame key, about to predict. -/
def egPredSt : St :=
  ⟨⟨"gbm", egAttrs, "H2OBinomialModel",
    some ⟨.binomial, .int 42, "gbm", some "model1"⟩, some "model1", 0⟩,
   [[("training_frame", .str "tmpTrain")]], 0, []⟩

def egPredEnv : Env := { egEnv with frameKeys := fun _ => "tmpTest" }

def egPredRun : Except PyError H2OFrame × St :=
  (predictM (.frame egValFrame)).run egPredSt egPredEnv

/-- C7: a successful `predict` sends the test data (obtaining key `tmpTest`)
but its single removal call is for `self._parameters["training_frame"]`
(`tmpTrain`); no removal is ever issued for the key obtained by sending the
test-data frame, contradicting the claim (and the source's own comment
"toast the cbound frame"). -/
theorem predict_removes_training_frame_key_not_test_key :
    exceptOk egPredRun.1 = true
    ∧ egPredRun.2.trace =
        [Effect.sendFrame ["a", "b"] "tmpTest",
         Effect.postJson "Predictions/models/model1/frames/tmpTest" [],
         Effect.frameMeta "pred1",
         Effect.remove (.str "tmpTrain")]
    ∧ Effect.remove (.str "tmpTest") ∉ egPredRun.2.trace := by
  refine ⟨rfl, rfl, ?_⟩
  intro hmem
  have ht : egPredRun.2.trace =
      [Effect.sendFrame ["a", "b"] "tmpTest",
       Effect.postJson "Predictions/models/model1/frames/tmpTest" [],
       Effect.frameMeta "pred1",
       Effect.remove (.str "tmpTrain")] := rfl
  rw [ht] at hmem
  simp at hmem

/-- The same fit arguments replayed against a server now reporting a
Regression model. -/
def egEnv2 : Env := { egEnv with modelCategory := "Regression", destKey := "model2" }

/-- A second fit of the same builder object, continuing from the state the
first successful fit left behind. -/
def egRun2 : Except PyError Builder × St :=
  (fitM egFitArgsX (.str "c") PyVal.none).run egRun1.2 egEnv2

/-- C2 counterexample: the first fit consumed the `"H2O{}Model"` template
(`_model_type` is never reset), so a second fit on the same builder formats
the already-formatted string and dispatches to the Binomial wrapper even
though the server reported category `Regression`. Selection therefore does
not depend only on the reported category string on every call. -/
theorem fit_dispatch_reuses_stale_model_type :
    exceptOk egRun1.1 = true
    ∧ exceptOk egRun2.1 = true
    ∧ egEnv2.modelCategory = "Regression"
    ∧ egRun1.2.b.modelType = "H2OBinomialModel"
    ∧ (egRun2.2.b.fittedModel.map (·.kind)) = some ModelKind.binomial
    ∧ ModelKind.binomial ≠ ModelKind.regression :=
  ⟨rfl, rfl, rfl, rfl, rfl, fun h => ModelKind.noConfusion h⟩

/-- A builder whose stored feature parameter `x` is unset (`None`). -/
def egNoXSt : St :=
  ⟨⟨"kmeans", [("training_frame", .frame egFrame), ("x", PyVal.none)],
    modelTypeTemplate, Option.none, Option.none, 0⟩, [[]], 0, []⟩

def egRun3 : Except PyError Builder × St :=
  (fitM (.list [.str "a"]) PyVal.none PyVal.none).run egNoXSt egEnv

/-- C3 counterexample: a fit call that supplies a non-empty `x` (and no `y`,
as for an unsupervised learner) still raises the missing-features
`ValueError` when the stored `x` parameter is falsy, because the guard
`if not x or not y` sends the call into the stored-parameter check. The trace
stays empty, so this happens before any network call. -/
theorem fit_missing_features_error_with_nonempty_x :
    (PyVal.list [.str "a"]).truthy = true
    ∧ egRun3.1 = .error (.valueError missingFeaturesMsg)
    ∧ egRun3.2.trace = [] :=
  ⟨rfl, rfl, rfl⟩

/-! ### Run-unfolding lemmas for symbolic execution of the monad -/

@[simp] theorem M.run_bind {α β : Type} (m : M α) (f : α → M β) (st : St)
    (env : Env) :
    M.run (m >>= f) st env =
      match M.run m st env with
      | (Except.ok a, st1) => M.run (f a) st1 env
      | (Except.error e, st1) => (Except.error e, st1) := rfl

@[simp] theorem M.run_monad_pure {α : Type} (a : α) (st : St) (env : Env) :
    M.run (Pure.pure a) st env = (Except.ok a, st) := rfl

@[simp] theorem M.run_pure {α : Type} (a : α) (st : St) (env : Env) :
    M.run (M.pure a) st env = (Except.ok a, st) := rfl

@[simp] theorem M.run_throw {α : Type} (e : PyError) (st : St) (env : Env) :
    M.run (M.throw e : M α) st env = (Except.error e, st) := rfl

@[simp] theorem run_getSt (st : St) (env : Env) :
    M.run getSt st env = (Except.ok st, st) := rfl

@[simp] theorem run_setSt (st1 st : St) (env : Env) :
    M.run (setSt st1) st env = (Except.ok (), st1) := rfl

@[simp] theorem run_askEnv (st : St) (env : Env) :
    M.run askEnv st env = (Except.ok env, st) := rfl

@[simp] theorem run_getB (st : St) (env : Env) :
    M.run getB st env = (Except.ok st.b, st) := rfl

@[simp] theorem run_modifyB (f : Builder → Builder) (st : St) (env : Env) :
    M.run (modifyB f) st env = (Except.ok (), { st with b := f st.b }) := rfl

@[simp] theorem run_emit (e : Effect) (st : St) (env : Env) :
    M.run (emit e) st env =
      (Except.ok (), { st with trace := st.trace ++ [e] }) := rfl

@[simp] theorem run_paramsGet (k : String) (st : St) (env : Env) :
    M.run (paramsGet k) st env =
      match PyDict.get? st.params k with
      | some v => (Except.ok v, st)
      | Option.none => (Except.error (.keyError k), st) := rfl

@[simp] theorem run_paramsSet (k : String) (v : PyVal) (st : St) (env : Env) :
    M.run (paramsSet k v) st env = (Except.ok (), stSetParam st k v) := rfl

@[simp] theorem run_getParams (st : St) (env : Env) :
    M.run getParams st env = (Except.ok st.params, st) := rfl

@[simp] theorem run_sendFrameM (f : H2OFrame) (st : St) (env : Env) :
    M.run (sendFrameM f) st env =
      (Except.ok (env.frameKeys st.nsent),
        { st with
          nsent := st.nsent + 1
          trace := st.trace ++ [Effect.sendFrame f.names (env.frameKeys st.nsent)] }) := rfl

@[simp] theorem run_removeM (v : PyVal) (st : St) (env : Env) :
    M.run (removeM v) st env =
      (Except.ok (), { st with trace := st.trace ++ [Effect.remove v] }) := rfl

@[simp] theorem run_liftE {α : Type} (x : Except PyError α) (st : St) (env : Env) :
    M.run (liftE x) st env =
      match x with
      | Except.ok a => (Except.ok a, st)
      | Except.error e => (Except.error e, st) := by
  cases x <;> rfl

theorem pyFormat_template (cat : String) :
    pyFormat modelTypeTemplate cat = "H2O" ++ cat ++ "Model" := by
  obtain ⟨l⟩ := cat
  rfl

theorem wrap_inj (a b : String) :
    ("H2O" ++ a ++ "Model" = "H2O" ++ b ++ "Model") ↔ a = b := by
  constructor
  · intro h
    obtain ⟨la⟩ := a
    obtain ⟨lb⟩ := b
    have hd := congrArg String.data h
    simp only [String.data_append] at hd
    apply congrArg String.mk
    exact List.append_cancel_left (List.append_cancel_right hd)
  · intro h
    rw [h]

theorem wrap_ne_of_ne (cat other : String) (h : cat ≠ other) :
    "H2O" ++ cat ++ "Model" ≠ "H2O" ++ other ++ "Model" := fun hc =>
  h ((wrap_inj cat other).mp hc)

/-- C2 amended: when `_model_type` still holds the pristine `"H2O{}Model"`
template — as on the first `fit` of a builder — the dispatch of
`_set_fitted_model_and_model_type` selects exactly the wrapper matching the
server-reported category string (Binomial, Multinomial, Clustering,
Regression) and raises the distinct unknown-model error for every other
string. On later calls the template is already consumed, so the selection is
made by whatever `_model_type` the first call left behind (see the
counterexample). -/
theorem set_fitted_model_dispatch_by_category (st : St) (env : Env)
    (dk : String) (h : st.b.modelType = modelTypeTemplate) :
    (env.modelCategory = "Binomial" →
      ((setFittedModelM dk).run st env).1 = .ok ()
      ∧ ((setFittedModelM dk).run st env).2.b.fittedModel =
          some ⟨.binomial, env.modelOutput, st.b.algo, some dk⟩)
    ∧ (env.modelCategory = "Multinomial" →
      ((setFittedModelM dk).run st env).1 = .ok ()
      ∧ ((setFittedModelM dk).run st env).2.b.fittedModel =
          some ⟨.multinomial, env.modelOutput, st.b.algo, some dk⟩)
    ∧ (env.modelCategory = "Clustering" →
      ((setFittedModelM dk).run st env).1 = .ok ()
      ∧ ((setFittedModelM dk).run st env).2.b.fittedModel =
          some ⟨.clustering, env.modelOutput, st.b.algo, some dk⟩)
    ∧ (env.modelCategory = "Regression" →
      ((setFittedModelM dk).run st env).1 = .ok ()
      ∧ ((setFittedModelM dk).run st env).2.b.fittedModel =
          some ⟨.regression, env.modelOutput, st.b.algo, some dk⟩)
    ∧ (env.modelCategory ∉ ["Binomial", "Multinomial", "Clustering", "Regression"] →
      ∃ msg, ((setFittedModelM dk).run st env).1 =
        .error (.unknownModelError msg)) := by
  obtain ⟨⟨alg, att, mt, fm, mk, pa⟩, hp, ns, tr⟩ := st
  obtain ⟨fk, sch, dk0, cat, out, pk, pl, pv⟩ := env
  replace h : mt = modelTypeTemplate := h
  subst h
  refine ⟨?_, ?_, ?_, ?_, ?_⟩
  · intro hcat
    replace hcat : cat = "Binomial" := hcat
    subst hcat
    exact ⟨rfl, rfl⟩
  · intro hcat
    replace hcat : cat = "Multinomial" := hcat
    subst hcat
    exact ⟨rfl, rfl⟩
  · intro hcat
    replace hcat : cat = "Clustering" := hcat
    subst hcat
    exact ⟨rfl, rfl⟩
  · intro hcat
    replace hcat : cat = "Regression" := hcat
    subst hcat
    exact ⟨rfl, rfl⟩
  · intro hcat
    simp only [List.mem_cons, List.mem_singleton] at hcat
    push_neg at hcat
    obtain ⟨h1, h2, h3, h4, _⟩ := hcat
    refine ⟨"Don't know what to do with model type: "
      ++ ("H2O" ++ cat ++ "Model"), ?_⟩
    simp only [setFittedModelM, M.run_bind, run_modifyB, run_emit, run_askEnv,
      run_getSt, M.run_throw, M.run_monad_pure]
    rw [pyFormat_template cat]
    rw [show ModelBase.BINOMIAL = "H2O" ++ "Binomial" ++ "Model" from rfl,
        show ModelBase.MULTINOMIAL = "H2O" ++ "Multinomial" ++ "Model" from rfl,
        show ModelBase.CLUSTERING = "H2O" ++ "Clustering" ++ "Model" from rfl,
        show ModelBase.REGRESSION = "H2O" ++ "Regression" ++ "Model" from rfl]
    rw [if_neg (wrap_ne_of_ne cat "Binomial" h1),
        if_neg (wrap_ne_of_ne cat "Multinomial" h2),
        if_neg (wrap_ne_of_ne cat "Clustering" h3),
        if_neg (wrap_ne_of_ne cat "Regression" h4)]
    rfl

/-- A server reporting an unrecognized model category. -/
def egEnvUnknown : Env := { egEnv with modelCategory := "AutoEncoder" }

/-- Witness for C2 amended: with the pristine template, category `Binomial`
yields the binomial wrapper and an unrecognized category raises the
unknown-model error. -/
theorem set_fitted_model_dispatch_by_category_witness :
    egSt.b.modelType = modelTypeTemplate
    ∧ (((setFittedModelM "model1").run egSt egEnv).1 = .ok ()
      ∧ ((setFittedModelM "model1").run egSt egEnv).2.b.fittedModel =
          some ⟨.binomial, egEnv.modelOutput, egSt.b.algo, some "model1"⟩)
    ∧ (∃ msg, ((setFittedModelM "model1").run egSt egEnvUnknown).1 =
        .error (.unknownModelError msg)) :=
  ⟨rfl,
   (set_fitted_model_dispatch_by_category egSt egEnv "model1" rfl).1 rfl,
   (set_fitted_model_dispatch_by_category egSt egEnvUnknown "model1" rfl).2.2.2.2
     (by decide)⟩

/-! ### State lemmas for the parameters reference -/

theorem stSetParam_b (st : St) (k : String) (v : PyVal) :
    (stSetParam st k v).b = st.b := rfl

theorem stSetParam_nsent (st : St) (k : String) (v : PyVal) :
    (stSetParam st k v).nsent = st.nsent := rfl

theorem stSetParam_trace (st : St) (k : String) (v : PyVal) :
    (stSetParam st k v).trace = st.trace := rfl

theorem stSetParam_heap_length (st : St) (k : String) (v : PyVal) :
    (stSetParam st k v).heap.length = st.heap.length := by
  simp [stSetParam, heapSet]

/-- The parameters reference is live: its address is inside the heap. -/
def St.inRange (st : St) : Prop := st.b.parametersAddr < st.heap.length

theorem stSetParam_inRange (st : St) (k : String) (v : PyVal)
    (h : st.inRange) : (stSetParam st k v).inRange := by
  unfold St.inRange at h ⊢
  rw [stSetParam_b, stSetParam_heap_length]
  exact h

theorem stSetParam_params (st : St) (k : String) (v : PyVal)
    (h : st.inRange) :
    (stSetParam st k v).params = PyDict.set st.params k v := by
  unfold stSetParam St.params heapGet heapSet
  simp only
  rw [List.getD, List.get?_eq_getElem?, List.getElem?_set_eq_of_lt _ h]
  rfl

theorem stSetParam_get_self (st : St) (k : String) (v : PyVal)
    (h : st.inRange) :
    PyDict.get? (stSetParam st k v).params k = some v := by
  rw [stSetParam_params st k v h, PyDict.get?_set_self]

theorem stSetParam_get_ne (st : St) (k : String) (v : PyVal) (k' : String)
    (hk : k' ≠ k) :
    PyDict.get? (stSetParam st k v).params k' = PyDict.get? st.params k' := by
  by_cases h : st.inRange
  · rw [stSetParam_params st k v h, PyDict.get?_set_ne _ _ _ _ hk]
  · have : (stSetParam st k v).params = st.params := by
      unfold St.inRange at h
      unfold stSetParam St.params heapGet heapSet
      simp only
      rw [List.set_eq_of_length_le (Nat.le_of_not_lt h)]
    rw [this]

theorem St.inRange_of_get?_some (st : St) (k : String) (v : PyVal)
    (hg : PyDict.get? st.params k = some v) : st.inRange := by
  unfold St.inRange
  by_contra hge
  have hemp : st.params = [] := by
    unfold St.params heapGet
    rw [List.getD, List.get?_eq_getElem?, List.getElem?_eq_none (Nat.le_of_not_lt hge)]
    rfl
  rw [hemp] at hg
  exact Option.noConfusion hg

theorem run_bind_ok {α β : Type} {m : M α} {f : α → M β} {st st2 : St}
    {env : Env} {b : β}
    (h : M.run (m >>= f) st env = (.ok b, st2)) :
    ∃ a st1, M.run m st env = (.ok a, st1) ∧ M.run (f a) st1 env = (.ok b, st2) := by
  rw [M.run_bind] at h
  rcases hm : M.run m st env with ⟨r1, st1⟩
  rw [hm] at h
  cases r1 with
  | ok a => exact ⟨a, st1, rfl, h⟩
  | error e => simp at h

theorem setAndCheckXY_ok (x y : PyVal) (st st1 : St) (env : Env)
    (xy : PyVal × PyVal)
    (h : M.run (setAndCheckXYM x y) st env = (.ok xy, st1)) :
    st1.b = st.b ∧ st1.nsent = st.nsent ∧ st1.trace = st.trace
    ∧ st1.heap.length = st.heap.length
    ∧ ∀ k, k ≠ "x" → k ≠ "y" →
        PyDict.get? st1.params k = PyDict.get? st.params k := by
  unfold setAndCheckXYM at h
  by_cases hc : (!x.truthy || !y.truthy) = true
  · rw [if_pos hc] at h
    rw [M.run_bind, run_paramsGet] at h
    rcases hg : PyDict.get? st.params "x" with _ | px
    · rw [hg] at h
      simp at h
    · rw [hg] at h
      dsimp only at h
      by_cases hpx : (!px.truthy) = true
      · rw [if_pos hpx] at h
        simp at h
      · rw [if_neg hpx] at h
        have hir : st.inRange := St.inRange_of_get?_some st "x" px hg
        by_cases hx : x.truthy = true <;> by_cases hy : y.truthy = true <;>
          simp only [hx, hy, if_true, if_false, Bool.false_eq_true,
            M.run_bind, run_paramsSet, run_paramsGet, run_getParams,
            M.run_monad_pure, M.run_pure] at h
        · -- x and y both supplied
          have hrx : PyDict.get? (stSetParam (stSetParam st "x" x) "y" y).params "x"
              = some x := by
            rw [stSetParam_get_ne _ _ _ _ (by decide)]
            exact stSetParam_get_self st "x" x hir
          rw [hrx] at h
          have hs : stSetParam (stSetParam st "x" x) "y" y = st1 :=
            congrArg Prod.snd h
          rw [← hs]
          refine ⟨rfl, rfl, rfl, ?_, ?_⟩
          · rw [stSetParam_heap_length, stSetParam_heap_length]
          · intro k hkx hky
            rw [stSetParam_get_ne _ _ _ _ hky, stSetParam_get_ne _ _ _ _ hkx]
        · -- only x supplied
          have hrx : PyDict.get? (stSetParam st "x" x).params "x" = some x :=
            stSetParam_get_self st "x" x hir
          rw [hrx] at h
          have hs : stSetParam st "x" x = st1 := congrArg Prod.snd h
          rw [← hs]
          refine ⟨rfl, rfl, rfl, ?_, ?_⟩
          · rw [stSetParam_heap_length]
          · intro k hkx hky
            rw [stSetParam_get_ne _ _ _ _ hkx]
        · -- only y supplied
          have hrx : PyDict.get? (stSetParam st "y" y).params "x" = some px := by
            rw [stSetParam_get_ne _ _ _ _ (by decide)]
            exact hg
          rw [hrx] at h
          have hs : stSetParam st "y" y = st1 := congrArg Prod.snd h
          rw [← hs]
          refine ⟨rfl, rfl, rfl, ?_, ?_⟩
          · rw [stSetParam_heap_length]
          · intro k hkx hky
            rw [stSetParam_get_ne _ _ _ _ hky]
        · -- neither supplied
          rw [hg] at h
          have hs : st = st1 := congrArg Prod.snd h
          rw [← hs]
          exact ⟨rfl, rfl, rfl, rfl, fun k _ _ => rfl⟩
  · rw [if_neg hc, M.run_pure] at h
    have h2 : st = st1 := congrArg Prod.snd h
    rw [← h2]
    exact ⟨rfl, rfl, rfl, rfl, fun k _ _ => rfl⟩

/-- The state `_update` leaves behind: a fresh dictionary holding the
sanitized public attributes, with `self._parameters` pointing at it. -/
def updSt (st : St) : St :=
  { st with
    heap := st.heap ++ [sanitizeDict st.b.attrs]
    b := { st.b with parametersAddr := st.heap.length } }

theorem run_updateM (st : St) (env : Env) :
    M.run updateM st env = (.ok st.heap.length, updSt st) := rfl

theorem updSt_params (st : St) : (updSt st).params = sanitizeDict st.b.attrs := by
  unfold updSt St.params heapGet
  simp [List.getD, List.getElem?_concat_length]

theorem updSt_inRange (st : St) : (updSt st).inRange := by
  unfold updSt St.inRange
  simp

theorem inRange_of_eqs {st st1 : St} (hb : st1.b = st.b)
    (hl : st1.heap.length = st.heap.length) (h : st.inRange) : st1.inRange := by
  unfold St.inRange at h ⊢
  rw [hb, hl]
  exact h

theorem checkTrainingFrame_ok (x : PyVal) (st st1 : St) (env : Env)
    (f : H2OFrame)
    (h : M.run (checkTrainingFrameM x) st env = (.ok f, st1)) : st1 = st := by
  unfold checkTrainingFrameM at h
  rw [M.run_bind, run_getSt] at h
  dsimp only at h
  rcases ha : st.b.getAttr "training_frame" with _ | tf
  · rw [ha] at h
    simp at h
  · rw [ha] at h
    dsimp only at h
    by_cases ht : (!tf.truthy) = true
    · rw [if_pos ht] at h
      simp at h
    · rw [if_neg ht] at h
      cases tf with
      | frame fr =>
          dsimp only at h
          by_cases hcp : (!(columnsPresent fr x)) = true
          · rw [if_pos hcp] at h
            rcases x with _ | n | fl | s | fr2 | xs <;> simp at h
          · rw [if_neg hcp] at h
            exact (congrArg Prod.snd h).symm
      | none => simp at h
      | int n => simp at h
      | float fl => simp at h
      | str s => simp at h
      | list xs => simp at h

theorem liftE_ok {α : Type} (ex : Except PyError α) (st st1 : St) (env : Env)
    (a : α) (h : M.run (liftE ex) st env = (.ok a, st1)) :
    st1 = st ∧ ex = .ok a := by
  cases ex with
  | ok b =>
      rw [run_liftE] at h
      have h1 : Except.ok b = Except.ok a := congrArg Prod.fst h
      have h2 : st = st1 := congrArg Prod.snd h
      exact ⟨h2.symm, h1⟩
  | error e =>
      rw [run_liftE] at h
      simp at h

theorem ite_response_ok (yv : PyVal) (st st1 : St) (env : Env) (u : PUnit)
    (h : M.run (if yv.truthy then setResponseColumnM yv else M.pure PUnit.unit)
          st env = (.ok u, st1)) :
    st1.b = st.b ∧ st1.nsent = st.nsent ∧ st1.trace = st.trace
    ∧ st1.heap.length = st.heap.length
    ∧ ∀ k, k ≠ "response_column" →
        PyDict.get? st1.params k = PyDict.get? st.params k := by
  by_cases hyt : yv.truthy = true
  · rw [if_pos hyt] at h
    unfold setResponseColumnM at h
    rw [run_paramsSet] at h
    have hs : stSetParam st "response_column" yv = st1 := congrArg Prod.snd h
    rw [← hs]
    refine ⟨rfl, rfl, rfl, stSetParam_heap_length .., ?_⟩
    intro k hk
    exact stSetParam_get_ne _ _ _ _ hk
  · rw [if_neg hyt, M.run_pure] at h
    have hs : st = st1 := congrArg Prod.snd h
    rw [← hs]
    exact ⟨rfl, rfl, rfl, rfl, fun k _ => rfl⟩

theorem run_setTrainingFrameM (ds : H2OFrame) (st : St) (env : Env) :
    M.run (setTrainingFrameM ds) st env =
      (.ok (),
        stSetParam
          { st with
            nsent := st.nsent + 1
            trace := st.trace ++ [Effect.sendFrame ds.names (env.frameKeys st.nsent)] }
          "training_frame" (.str (env.frameKeys st.nsent))) := rfl

theorem run_foldDefaultParamsM (st : St) (env : Env) :
    M.run foldDefaultParamsM st env =
      (.ok (foldCore env.schema st.params),
       { st with trace := st.trace ++ [Effect.getJson ("ModelBuilders/" ++ st.b.algo)] }) := rfl

theorem run_postJobM (body : PyDict) (st : St) (env : Env) :
    M.run (postJobM body) st env =
      (.ok env.destKey,
       { st with trace := st.trace ++ [Effect.postJson ("ModelBuilders/" ++ st.b.algo) body] }) := rfl

/-- The guard deciding whether `_set_validation_frame` will send a frame:
either one was passed to `fit`, or a truthy one sits in the parameters. -/
def validCond (st : St) (vf : PyVal) : Bool :=
  vf.truthy ||
    (match PyDict.get? st.params "validation_frame" with
     | some v => v.truthy
     | Option.none => false)

theorem setValidationFrame_ok (vf : PyVal) (st st1 : St) (env : Env) (u : PUnit)
    (h : M.run (setValidationFrameM vf) st env = (.ok u, st1)) :
    (st1 = st ∧ validCond st vf = false)
    ∨ (validCond st vf = true
      ∧ st1.nsent = st.nsent + 1
      ∧ st1.b = st.b
      ∧ st1.heap.length = st.heap.length
      ∧ (∃ nm, st1.trace = st.trace ++ [Effect.sendFrame nm (env.frameKeys st.nsent)])
      ∧ (st.inRange →
          PyDict.get? st1.params "validation_frame" =
            some (.str (env.frameKeys st.nsent)))
      ∧ ∀ k, k ≠ "validation_frame" →
          PyDict.get? st1.params k = PyDict.get? st.params k) := by
  unfold setValidationFrameM at h
  rw [M.run_bind, run_getParams] at h
  dsimp only at h
  by_cases hout : (vf.truthy || PyDict.hasKey st.params "validation_frame") = true
  · rw [if_pos hout] at h
    by_cases hvf : vf.truthy = true
    · rw [if_pos hvf] at h
      cases vf with
      | frame f =>
          rw [M.run_bind, run_paramsSet] at h
          dsimp only at h
          unfold checkAndSendValidation at h
          dsimp only at h
          rw [M.run_bind, run_sendFrameM] at h
          dsimp only at h
          rw [run_paramsSet] at h
          right
          have hs := congrArg Prod.snd h
          dsimp only at hs
          rw [← hs]
          refine ⟨by simp [validCond, hvf], rfl, rfl,
            ?_, ⟨f.names, rfl⟩, ?_, ?_⟩
          · rw [stSetParam_heap_length]
            exact stSetParam_heap_length st "validation_frame" (PyVal.frame f)
          · intro hir
            have hir2 : St.inRange
                { b := (stSetParam st "validation_frame" (PyVal.frame f)).b,
                  heap := (stSetParam st "validation_frame" (PyVal.frame f)).heap,
                  nsent := (stSetParam st "validation_frame" (PyVal.frame f)).nsent + 1,
                  trace := (stSetParam st "validation_frame" (PyVal.frame f)).trace ++
                    [Effect.sendFrame f.names
                      (env.frameKeys (stSetParam st "validation_frame" (PyVal.frame f)).nsent)] } := by
              unfold St.inRange
              show st.b.parametersAddr <
                (stSetParam st "validation_frame" (PyVal.frame f)).heap.length
              rw [stSetParam_heap_length]
              exact hir
            exact stSetParam_get_self _ _ _ hir2
          · intro k hk
            rw [stSetParam_get_ne _ _ _ _ hk]
            exact stSetParam_get_ne st "validation_frame" (PyVal.frame f) k hk
      | none => simp [PyVal.truthy] at hvf
      | int n =>
          rw [M.run_bind, run_paramsSet] at h
          dsimp only at h
          unfold checkAndSendValidation at h
          simp at h
      | float fl =>
          rw [M.run_bind, run_paramsSet] at h
          dsimp only at h
          unfold checkAndSendValidation at h
          simp at h
      | str s =>
          rw [M.run_bind, run_paramsSet] at h
          dsimp only at h
          unfold checkAndSendValidation at h
          simp at h
      | list xs =>
          rw [M.run_bind, run_paramsSet] at h
          dsimp only at h
          unfold checkAndSendValidation at h
          simp at h
    · rw [if_neg hvf] at h
      rw [M.run_bind, run_paramsGet] at h
      rcases hpv : PyDict.get? st.params "validation_frame" with _ | pv
      · rw [hpv] at h
        simp at h
      · rw [hpv] at h
        dsimp only at h
        by_cases hpvt : (!pv.truthy) = true
        · rw [if_pos hpvt, M.run_pure] at h
          left
          have hs := congrArg Prod.snd h
          dsimp only at hs
          rw [← hs]
          refine ⟨rfl, ?_⟩
          simp only [validCond, hpv]
          simp only [Bool.not_eq_true] at hvf hpvt
          rw [hvf]
          simpa using hpvt
        · rw [if_neg hpvt] at h
          cases pv with
          | frame f =>
              unfold checkAndSendValidation at h
              dsimp only at h
              rw [M.run_bind, run_sendFrameM] at h
              dsimp only at h
              rw [run_paramsSet] at h
              right
              have hs := congrArg Prod.snd h
              dsimp only at hs
              rw [← hs]
              refine ⟨?_, rfl, rfl, ?_, ⟨f.names, rfl⟩, ?_, ?_⟩
              · simp only [validCond, hpv]
                simp [PyVal.truthy]
              · rw [stSetParam_heap_length]
              · intro hir
                have hir2 : St.inRange
                    { b := st.b, heap := st.heap, nsent := st.nsent + 1,
                      trace := st.trace ++
                        [Effect.sendFrame f.names (env.frameKeys st.nsent)] } := hir
                exact stSetParam_get_self _ _ _ hir2
              · intro k hk
                exact stSetParam_get_ne _ _ _ _ hk
          | none => simp [PyVal.truthy] at hpvt
          | int n =>
              unfold checkAndSendValidation at h
              simp at h
          | float fl =>
              unfold checkAndSendValidation at h
              simp at h
          | str s =>
              unfold checkAndSendValidation at h
              simp at h
          | list xs =>
              unfold checkAndSendValidation at h
              simp at h
  · rw [if_neg hout, M.run_pure] at h
    left
    have hs := congrArg Prod.snd h
    dsimp only at hs
    rw [← hs]
    refine ⟨rfl, ?_⟩
    simp only [Bool.or_eq_true, not_or, Bool.not_eq_true] at hout
    obtain ⟨h1, h2⟩ := hout
    have : PyDict.get? st.params "validation_frame" = Option.none :=
      PyDict.get?_eq_none_of_not_hasKey _ _ (by rw [h2]; exact Bool.false_ne_true)
    simp [validCond, h1, this]

theorem setFittedModel_ok (dk : String) (st st1 : St) (env : Env) (u : PUnit)
    (h : M.run (setFittedModelM dk) st env = (.ok u, st1)) :
    st1.heap = st.heap ∧ st1.b.parametersAddr = st.b.parametersAddr
    ∧ st1.nsent = st.nsent
    ∧ st1.trace = st.trace ++ [Effect.getJson ("Models/" ++ dk)] := by
  unfold setFittedModelM at h
  simp only [M.run_bind, run_modifyB, run_emit, run_askEnv, run_getSt,
    M.run_monad_pure, M.run_throw] at h
  split at h
  · have hs := congrArg Prod.snd h
    dsimp only at hs
    rw [← hs]
    exact ⟨rfl, rfl, rfl, rfl⟩
  · split at h
    · have hs := congrArg Prod.snd h
      dsimp only at hs
      rw [← hs]
      exact ⟨rfl, rfl, rfl, rfl⟩
    · split at h
      · have hs := congrArg Prod.snd h
        dsimp only at hs
        rw [← hs]
        exact ⟨rfl, rfl, rfl, rfl⟩
      · split at h
        · have hs := congrArg Prod.snd h
          dsimp only at hs
          rw [← hs]
          exact ⟨rfl, rfl, rfl, rfl⟩
        · simp at h

/-- C6 guard: a validation frame counts as "set for this call" when one is
passed to `fit` or a truthy `validation_frame` sits among the collected
builder attributes. -/
def validationRequested (b : Builder) (vf : PyVal) : Bool :=
  vf.truthy ||
    (match PyDict.get? (sanitizeDict b.attrs) "validation_frame" with
     | some v => v.truthy
     | Option.none => false)

theorem fit_success_removes_temp_frames (x y vf : PyVal) (st : St) (env : Env)
    (r : Builder) (stZ : St)
    (h : M.run (fitM x y vf) st env = (.ok r, stZ)) :
    Effect.remove (.str (env.frameKeys st.nsent)) ∈ stZ.trace
    ∧ (validationRequested st.b vf = true →
        Effect.remove (.str (env.frameKeys (st.nsent + 1))) ∈ stZ.trace) := by
  unfold fitM at h
  -- 1: saved ← _update()
  obtain ⟨saved, stA, hA, h1⟩ := run_bind_ok h
  rw [run_updateM] at hA
  have hAeq : updSt st = stA := congrArg Prod.snd hA
  rw [← hAeq] at h1
  -- 2: x/y check
  obtain ⟨xy, stB, hB, h2⟩ := run_bind_ok h1
  obtain ⟨hBb, hBn, hBt, hBl, hBp⟩ := setAndCheckXY_ok _ _ _ _ _ _ hB
  -- 3: training frame check (pure)
  obtain ⟨ds, stC, hC, h3⟩ := run_bind_ok h2
  have hCeq : stC = stB := checkTrainingFrame_ok _ _ _ _ _ hC
  -- 4: index conversion (pure)
  obtain ⟨xy2, stD, hD, h4⟩ := run_bind_ok h3
  obtain ⟨hDeq, _⟩ := liftE_ok _ _ _ _ _ hD
  -- 5: ignored_columns
  obtain ⟨u5, stE, hE, h5⟩ := run_bind_ok h4
  unfold setIgnoredColumnsM at hE
  rw [run_paramsSet] at hE
  have hEeq := congrArg Prod.snd hE
  dsimp only at hEeq
  -- 6: response column (maybe)
  obtain ⟨u6, stF, hF, h6⟩ := run_bind_ok h5
  obtain ⟨hFb, hFn, hFt, hFl, hFp⟩ := ite_response_ok _ _ _ _ _ hF
  -- chained facts up to the training-frame send
  have hFn' : stF.nsent = st.nsent := by
    rw [hFn, ← hEeq, stSetParam_nsent, hDeq, hCeq, hBn]
    rfl
  have hFt' : stF.trace = st.trace := by
    rw [hFt, ← hEeq, stSetParam_trace, hDeq, hCeq, hBt]
    rfl
  have hFb' : stF.b = (updSt st).b := by
    rw [hFb, ← hEeq, stSetParam_b, hDeq, hCeq, hBb]
  have hFl' : stF.heap.length = (updSt st).heap.length := by
    rw [hFl, ← hEeq, stSetParam_heap_length, hDeq, hCeq, hBl]
  have hFir : stF.inRange := by
    exact inRange_of_eqs hFb' hFl' (updSt_inRange st)
  have hFpv : PyDict.get? stF.params "validation_frame" =
      PyDict.get? (sanitizeDict st.b.attrs) "validation_frame" := by
    rw [hFp "validation_frame" (by decide), ← hEeq,
      stSetParam_get_ne _ _ _ _ (by decide), hDeq, hCeq,
      hBp "validation_frame" (by decide) (by decide), updSt_params]
  -- 7: training frame sent, key put into the parameters
  obtain ⟨u7, stG, hG, h7⟩ := run_bind_ok h6
  rw [run_setTrainingFrameM] at hG
  have hGeq : stSetParam
      { stF with
        nsent := stF.nsent + 1
        trace := stF.trace ++ [Effect.sendFrame ds.names (env.frameKeys stF.nsent)] }
      "training_frame" (.str (env.frameKeys stF.nsent)) = stG :=
    congrArg Prod.snd hG
  have hGn : stG.nsent = st.nsent + 1 := by
    rw [← hGeq, stSetParam_nsent]
    dsimp only
    rw [hFn']
  have hGt : stG.trace = st.trace
      ++ [Effect.sendFrame ds.names (env.frameKeys st.nsent)] := by
    rw [← hGeq, stSetParam_trace]
    dsimp only
    rw [hFt', hFn']
  have hGb : stG.b = (updSt st).b := by
    rw [← hGeq, stSetParam_b]
    dsimp only
    rw [hFb']
  have hGl : stG.heap.length = (updSt st).heap.length := by
    rw [← hGeq, stSetParam_heap_length]
    dsimp only
    rw [hFl']
  have hGir : stG.inRange := inRange_of_eqs hGb hGl (updSt_inRange st)
  have hGtf : PyDict.get? stG.params "training_frame" =
      some (.str (env.frameKeys st.nsent)) := by
    rw [← hGeq, hFn']
    apply stSetParam_get_self
    exact inRange_of_eqs hFb' hFl' (updSt_inRange st)
  have hGpv : PyDict.get? stG.params "validation_frame" =
      PyDict.get? (sanitizeDict st.b.attrs) "validation_frame" := by
    rw [← hGeq, stSetParam_get_ne _ _ _ _ (by decide)]
    exact hFpv
  -- 8: validation frame (maybe sent)
  obtain ⟨u8, stH, hH, h8⟩ := run_bind_ok h7
  have hHinv := setValidationFrame_ok _ _ _ _ _ hH
  have hvcond : validCond stG vf = validationRequested st.b vf := by
    unfold validCond validationRequested
    rw [hGpv]
  -- 9: defaults folded (GET only)
  obtain ⟨body, stI, hI, h9⟩ := run_bind_ok h8
  rw [run_foldDefaultParamsM] at hI
  have hIeq : ({ stH with trace := stH.trace
      ++ [Effect.getJson ("ModelBuilders/" ++ stH.b.algo)] } : St) = stI :=
    congrArg Prod.snd hI
  -- 10: job posted
  obtain ⟨dk, stJ, hJ, h10⟩ := run_bind_ok h9
  rw [run_postJobM] at hJ
  have hJeq : ({ stI with trace := stI.trace
      ++ [Effect.postJson ("ModelBuilders/" ++ stI.b.algo) body] } : St) = stJ :=
    congrArg Prod.snd hJ
  -- 11: model fetched and dispatched
  obtain ⟨u11, stK, hK, h11⟩ := run_bind_ok h10
  obtain ⟨hKh, hKa, hKn, hKt⟩ := setFittedModel_ok _ _ _ _ _ hK
  have hKparams : stK.params = stH.params := by
    unfold St.params heapGet
    rw [hKh, hKa, ← hJeq, ← hIeq]
  -- 12: read the temporary training-frame key
  obtain ⟨tk, stL, hL, h12⟩ := run_bind_ok h11
  rw [run_paramsGet] at hL
  have hKtf : PyDict.get? stK.params "training_frame" =
      some (.str (env.frameKeys st.nsent)) := by
    rw [hKparams]
    rcases hHinv with ⟨hHeq, _⟩ | ⟨_, _, _, _, _, _, hHkeys⟩
    · rw [hHeq]
      exact hGtf
    · rw [hHkeys "training_frame" (by decide)]
      exact hGtf
  rw [hKtf] at hL
  have hLeq : stK = stL := congrArg Prod.snd hL
  have hLtk : PyVal.str (env.frameKeys st.nsent) = tk := by
    have := congrArg Prod.fst hL
    dsimp only at this
    injection this
  -- 13: remove the training-frame key
  obtain ⟨u13, stM, hM, h13⟩ := run_bind_ok h12
  rw [run_removeM] at hM
  have hMeq : ({ stL with trace := stL.trace ++ [Effect.remove tk] } : St) = stM :=
    congrArg Prod.snd hM
  -- 14: re-read the parameters
  obtain ⟨p, stN, hN, h14⟩ := run_bind_ok h13
  rw [run_getParams] at hN
  have hNeq : stM = stN := congrArg Prod.snd hN
  have hNp : stM.params = p := by
    have := congrArg Prod.fst hN
    dsimp only at this
    injection this
  -- the parameters dictionary at cleanup time is the one validation left
  have hMparams : stM.params = stH.params := by
    rw [← hMeq]
    show stL.params = stH.params
    rw [← hLeq]
    exact hKparams
  -- 15: conditional removal of the validation key
  obtain ⟨u15, stO, hO, h15⟩ := run_bind_ok h14
  -- 16: restore of the parameters reference (builder only)
  obtain ⟨u16, stP, hP, h16⟩ := run_bind_ok h15
  rw [run_modifyB] at hP
  have hPeq : ∃ b1, ({ stO with b := b1 } : St) = stP :=
    ⟨_, congrArg Prod.snd hP⟩
  -- 17: flowing return
  rw [run_getB] at h16
  have hZeq : stP = stZ := congrArg Prod.snd h16
  have hZtrace : stZ.trace = stO.trace := by
    obtain ⟨b1, hb1⟩ := hPeq
    rw [← hZeq, ← hb1]
  -- the removal of the training key is in every final trace
  have hMtrace : stM.trace = stL.trace ++ [Effect.remove tk] := by rw [← hMeq]
  have hOtraceExt : stO.trace = stN.trace
      ∨ ∃ v, stO.trace = stN.trace ++ [Effect.remove v] := by
    rcases hvv : PyDict.get? p "validation_frame" with _ | vv
    · rw [hvv] at hO
      rw [M.run_pure] at hO
      have he : stN = stO := congrArg Prod.snd hO
      exact Or.inl (congrArg St.trace he.symm)
    · rw [hvv] at hO
      dsimp only at hO
      by_cases hnn : (!vv.isNone) = true
      · rw [if_pos hnn, run_removeM] at hO
        have he : ({ stN with trace := stN.trace ++ [Effect.remove vv] } : St)
            = stO := congrArg Prod.snd hO
        exact Or.inr ⟨vv,
          show stO.trace = stN.trace ++ [Effect.remove vv] from
            congrArg St.trace he.symm⟩
      · rw [if_neg hnn, M.run_pure] at hO
        have he : stN = stO := congrArg Prod.snd hO
        exact Or.inl (congrArg St.trace he.symm)
  constructor
  · -- the training-frame key removal
    have h1mem : Effect.remove (.str (env.frameKeys st.nsent)) ∈ stM.trace := by
      rw [hMtrace, hLtk]
      exact List.mem_append_right _ (List.mem_singleton.mpr rfl)
    rw [hZtrace]
    rcases hOtraceExt with hsame | ⟨v, hext⟩
    · rw [hsame, ← hNeq]
      exact h1mem
    · rw [hext, ← hNeq]
      exact List.mem_append_left _ h1mem
  · -- the validation-frame key removal when one was set
    intro hreq
    rcases hHinv with ⟨_, hfalse⟩ | ⟨_, hHn, _, _, _, hHv, _⟩
    · rw [hvcond, hreq] at hfalse
      exact absurd hfalse (by simp)
    · have hkey2 : PyDict.get? p "validation_frame" =
          some (.str (env.frameKeys (st.nsent + 1))) := by
        rw [← hNp, hMparams]
        rw [← hGn]
        exact hHv hGir
      rw [hkey2] at hO
      dsimp only at hO
      rw [if_pos (by rfl), run_removeM] at hO
      have hOeq : ({ stN with trace := stN.trace
          ++ [Effect.remove (.str (env.frameKeys (st.nsent + 1)))] } : St) = stO :=
        congrArg Prod.snd hO
      rw [hZtrace, ← hOeq]
      show _ ∈ stN.trace ++ [Effect.remove (.str (env.frameKeys (st.nsent + 1)))]
      exact List.mem_append_right _ (List.mem_singleton.mpr rfl)

/-- A builder carrying a validation frame among its attributes. -/
def egValSt : St :=
  ⟨⟨"gbm",
    [("training_frame", .frame egFrame),
     ("x", .list [.str "a", .str "b"]),
     ("y", .str "c"),
     ("validation_frame", .frame egValFrame)],
    modelTypeTemplate, Option.none, Option.none, 0⟩, [[]], 0, []⟩

def egValRun : Except PyError Builder × St :=
  (fitM egFitArgsX (.str "c") PyVal.none).run egValSt egEnv

/-- Witness for C6: the concrete successful fit with a validation frame set
issues removal calls for both temporary keys. -/
theorem fit_success_removes_temp_frames_witness :
    Effect.remove (.str "tmpTrain") ∈ egValRun.2.trace
    ∧ Effect.remove (.str "tmpVal") ∈ egValRun.2.trace := by
  obtain ⟨r, hr⟩ : ∃ r, egValRun.1 = Except.ok r := ⟨_, rfl⟩
  have h : M.run (fitM egFitArgsX (.str "c") PyVal.none) egValSt egEnv =
      (.ok r, egValRun.2) := Prod.ext hr rfl
  have H := fit_success_removes_temp_frames egFitArgsX (.str "c") PyVal.none
    egValSt egEnv r egValRun.2 h
  exact ⟨H.1, H.2 (by rfl)⟩

/-- C3 amended: the missing-features `ValueError` is raised by `fit`'s x/y
check when, and only when, the stored `x` parameter is falsy AND at least one
of the call's `x`, `y` is unset — not only when `x` itself is unset, since a
falsy `y` (an unsupervised fit) also routes into the stored-parameter check.
When the error fires in `fit` it fires with the trace untouched, i.e. before
any network call. -/
theorem fit_missing_features_iff (x y vf : PyVal) (st : St) (env : Env)
    (px : PyVal) :
    (PyDict.get? st.params "x" = some px →
      ((((setAndCheckXYM x y).run st env).1 =
          .error (.valueError missingFeaturesMsg))
        ↔ ((x.truthy = false ∨ y.truthy = false) ∧ px.truthy = false)))
    ∧ (PyDict.get? (sanitizeDict st.b.attrs) "x" = some px →
        (x.truthy = false ∨ y.truthy = false) → px.truthy = false →
        ((fitM x y vf).run st env).1 = .error (.valueError missingFeaturesMsg)
        ∧ ((fitM x y vf).run st env).2.trace = st.trace) := by
  constructor
  · intro hpx
    by_cases hx : x.truthy = true
    · by_cases hy : y.truthy = true
      · -- both supplied: the whole branch is skipped
        have hc : (!x.truthy || !y.truthy) = false := by rw [hx, hy]; rfl
        unfold setAndCheckXYM
        rw [if_neg (by rw [hc]; exact Bool.false_ne_true), M.run_pure]
        simp [hx, hy]
      · -- y missing: the stored-x check decides
        have hy' : y.truthy = false := by rwa [Bool.not_eq_true] at hy
        have hc : (!x.truthy || !y.truthy) = true := by rw [hy']; simp
        unfold setAndCheckXYM
        rw [if_pos hc, M.run_bind, run_paramsGet, hpx]
        dsimp only
        by_cases hpxt : px.truthy = true
        · rw [if_neg (by rw [hpxt]; exact Bool.false_ne_true)]
          have hir : st.inRange := St.inRange_of_get?_some st "x" px hpx
          rw [M.run_bind, if_pos hx, run_paramsSet]
          dsimp only
          rw [M.run_bind, if_neg (by rw [hy']; exact Bool.false_ne_true), M.run_pure]
          dsimp only
          rw [M.run_bind, run_paramsGet, stSetParam_get_self st "x" x hir]
          dsimp only
          rw [M.run_bind, run_getParams]
          dsimp only
          rw [M.run_pure]
          simp [hpxt]
        · rw [if_pos (by rw [Bool.not_eq_true] at hpxt; rw [hpxt]; rfl), M.run_throw]
          simp only [Bool.not_eq_true] at hpxt
          simp [hpxt, hy']
    · -- x missing: the stored-x check decides
      have hx' : x.truthy = false := by rwa [Bool.not_eq_true] at hx
      have hc : (!x.truthy || !y.truthy) = true := by rw [hx']; simp
      unfold setAndCheckXYM
      rw [if_pos hc, M.run_bind, run_paramsGet, hpx]
      dsimp only
      by_cases hpxt : px.truthy = true
      · rw [if_neg (by rw [hpxt]; exact Bool.false_ne_true)]
        rw [M.run_bind, if_neg (by rw [hx']; exact Bool.false_ne_true), M.run_pure]
        dsimp only
        by_cases hyt : y.truthy = true
        · rw [M.run_bind, if_pos hyt, run_paramsSet]
          dsimp only
          rw [M.run_bind, run_paramsGet,
            stSetParam_get_ne st "y" y "x" (by decide), hpx]
          dsimp only
          rw [M.run_bind, run_getParams]
          dsimp only
          rw [M.run_pure]
          simp [hpxt]
        · rw [M.run_bind, if_neg hyt, M.run_pure]
          dsimp only
          rw [M.run_bind, run_paramsGet, hpx]
          dsimp only
          rw [M.run_bind, run_getParams]
          dsimp only
          rw [M.run_pure]
          simp [hpxt]
      · rw [if_pos (by rw [Bool.not_eq_true] at hpxt; rw [hpxt]; rfl), M.run_throw]
        simp only [Bool.not_eq_true] at hpxt
        simp [hpxt, hx']
  · intro hsx hcond hpxt
    unfold fitM
    rw [M.run_bind, run_updateM]
    dsimp only
    unfold setAndCheckXYM
    have hc : (!x.truthy || !y.truthy) = true := by
      rcases hcond with hcx | hcy
      · rw [hcx]; simp
      · rw [hcy]; simp
    rw [M.run_bind, if_pos hc, M.run_bind, run_paramsGet]
    have hupx : PyDict.get? (updSt st).params "x" = some px := by
      rw [updSt_params]
      exact hsx
    rw [hupx]
    dsimp only
    rw [if_pos (by rw [hpxt]; rfl), M.run_throw]
    exact ⟨rfl, rfl⟩

/-- A state whose live parameters dictionary stores a falsy `x`. -/
def egParamSt : St :=
  ⟨⟨"kmeans", [("x", PyVal.none)], modelTypeTemplate,
    Option.none, Option.none, 0⟩, [[("x", PyVal.none)]], 0, []⟩

/-- Witness for C3 amended: with a stored falsy `x`, a call supplying a
non-empty `x` but no `y` satisfies the iff's right side, and the
corresponding `fit` raises the missing-features error with an empty trace. -/
theorem fit_missing_features_iff_witness :
    ((((setAndCheckXYM (.list [.str "a"]) PyVal.none).run egParamSt egEnv).1 =
        .error (.valueError missingFeaturesMsg))
      ↔ (((PyVal.list [.str "a"]).truthy = false
            ∨ (PyVal.none : PyVal).truthy = false)
          ∧ (PyVal.none : PyVal).truthy = false))
    ∧ (((fitM (.list [.str "a"]) PyVal.none PyVal.none).run egNoXSt egEnv).1 =
        .error (.valueError missingFeaturesMsg)
      ∧ ((fitM (.list [.str "a"]) PyVal.none PyVal.none).run egNoXSt egEnv).2.trace =
          egNoXSt.trace) :=
  ⟨(fit_missing_features_iff (.list [.str "a"]) PyVal.none PyVal.none
      egParamSt egEnv PyVal.none).1 rfl,
   (fit_missing_features_iff (.list [.str "a"]) PyVal.none PyVal.none
      egNoXSt egEnv PyVal.none).2 rfl (Or.inr rfl) rfl⟩
